import Mathlib

/-!
# Verification of the wifi-intel aggregation engine

Shallow embedding of the two pipelines of the repository:

* `src/report/generate_report.py` — `load_scan` (schema check and
  normalization), `summarize` (per-BSSID aggregation), and the value
  formatting used by `build_pdf` for the MAC table rows.
* `src/web/app.py` — `load_df` (raw load, no validation), the `index`
  route (SSID filter and per-SSID counts) and the `ssid_view` route
  (per-BSSID aggregation of the rows of one SSID) together with the
  cell rendering done by the inline template.

Modelling conventions:

* A CSV text cell is `Option String`; `none` models a pandas missing
  value (an empty field is parsed by `read_csv` as NaN, so a present
  cell is never the empty string).
* Numbers are exact rationals `ℚ` (an idealisation of the float
  arithmetic of pandas), timestamps are `Nat` encodings of the
  calendar fields.
* String processing is done on `List Char` so that every definition
  evaluates by kernel reduction.
-/

namespace WifiIntel

/-- One CSV text cell; `none` is a pandas missing value (NaN). -/
abbrev Cell := Option String

/-- One raw input row, holding the text cells of the five relevant
columns (extra columns are ignored by both pipelines). -/
structure CsvRow where
  timestamp : Cell
  ssid : Cell
  bssid : Cell
  channel : Cell
  rssi : Cell
deriving DecidableEq

/-- A raw tabular input: the column names present plus the rows. -/
structure Csv where
  columns : List String
  rows : List CsvRow
deriving DecidableEq

/-- The five required columns, in the order the report loader checks
them (`expected` in `load_scan`). -/
def expectedColumns : List String :=
  ["timestamp", "ssid", "bssid", "channel", "rssi"]

/-- The columns of `expectedColumns` absent from the input, in expected
order: `[c for c in expected if c not in df.columns]`. -/
def missingColumns (csv : Csv) : List String :=
  expectedColumns.filter (fun c => !(csv.columns.contains c))

/-! ## Character-level helpers (structural analogues of the Python
string operations, so that everything reduces). -/

/-- Digits of a natural number literal; `none` on empty or non-digit
input. -/
def digitsToNat? (cs : List Char) : Option Nat :=
  if cs ≠ [] ∧ cs.all Char.isDigit then
    some (cs.foldl (fun n c => n * 10 + (c.toNat - 48)) 0)
  else none

/-- Split a character list on a separator character (like Python
`str.split(sep)` for a one-character separator). -/
def splitOnChar (sep : Char) : List Char → List (List Char)
  | [] => [[]]
  | c :: rest =>
    let r := splitOnChar sep rest
    if c = sep then [] :: r
    else
      match r with
      | [] => [[c]]
      | g :: gs => (c :: g) :: gs

/-- ASCII lower-casing of one character (model of Python case
folding, exact on ASCII). -/
def lowerChar (c : Char) : Char :=
  if 65 ≤ c.toNat ∧ c.toNat ≤ 90 then Char.ofNat (c.toNat + 32) else c

/-- Lower-case a string (ASCII model of `str.lower` and of
`re.IGNORECASE`). -/
def lowerStr (s : String) : String :=
  (s.data.map lowerChar).asString

/-- The whitespace characters stripped by Python `str.strip()`. -/
def isSpaceChar (c : Char) : Bool :=
  c = ' ' ∨ c = '\t' ∨ c = '\n' ∨ c = '\x0d' ∨ c = '\x0b' ∨ c = '\x0c'

/-- Python `str.strip()`: drop leading and trailing whitespace. -/
def stripStr (s : String) : String :=
  (((s.data.dropWhile isSpaceChar).reverse.dropWhile isSpaceChar).reverse).asString

/-- Join a list of strings with a separator, Python `sep.join(l)`. -/
def joinSep (sep : String) : List String → String
  | [] => ""
  | [s] => s
  | s :: rest => s ++ sep ++ joinSep sep rest

/-! ## Timestamp parsing and formatting -/

/-- Encode calendar fields into one natural number; on the bounded
fields produced by the parser the encoding is injective and its order
is chronological order. -/
def tsKey (y mo d h mi s : Nat) : Nat :=
  ((((y * 100 + mo) * 100 + d) * 100 + h) * 100 + mi) * 100 + s

/-- Parse `YYYY-MM-DD` with plausibility bounds. The year bounds model
the nanosecond range of pandas timestamps (out-of-range dates coerce
to NaT). -/
def parseDate (cs : List Char) : Option (Nat × Nat × Nat) :=
  match splitOnChar '-' cs with
  | [y, m, d] =>
    match digitsToNat? y, digitsToNat? m, digitsToNat? d with
    | some yn, some mn, some dn =>
      if 1678 ≤ yn ∧ yn ≤ 2261 ∧ 1 ≤ mn ∧ mn ≤ 12 ∧ 1 ≤ dn ∧ dn ≤ 31 then
        some (yn, mn, dn)
      else none
    | _, _, _ => none
  | _ => none

/-- Parse `HH:MM:SS` with plausibility bounds. -/
def parseTime (cs : List Char) : Option (Nat × Nat × Nat) :=
  match splitOnChar ':' cs with
  | [h, m, s] =>
    match digitsToNat? h, digitsToNat? m, digitsToNat? s with
    | some hn, some mn, some sn =>
      if hn ≤ 23 ∧ mn ≤ 59 ∧ sn ≤ 59 then some (hn, mn, sn) else none
    | _, _, _ => none
  | _ => none

/-- Modelled from pandas `to_datetime(..., errors="coerce")`: a
best-effort parse of `YYYY-MM-DD[ HH:MM:SS]`; an absent or unparsable
value becomes `none` (NaT), never an exception. The model restricts
the accepted formats to the ones above. -/
def to_datetime (c : Cell) : Option Nat :=
  match c with
  | none => none
  | some s =>
    match splitOnChar ' ' s.data with
    | [d] => (parseDate d).map (fun p => tsKey p.1 p.2.1 p.2.2 0 0 0)
    | [d, t] =>
      match parseDate d, parseTime t with
      | some p, some q => some (tsKey p.1 p.2.1 p.2.2 q.1 q.2.1 q.2.2)
      | _, _ => none
    | _ => none

/-- Left-pad a decimal rendering to two digits (`%02d`). -/
def pad2 (n : Nat) : String :=
  if n < 10 then "0" ++ toString n else toString n

/-- strftime("%Y-%m-%d %H:%M:%S") on the encoded timestamp; a missing
timestamp renders as the empty string.  Mirrors `fmt_ts` in
`build_pdf`. -/
def fmt_ts : Option Nat → String
  | none => ""
  | some k =>
    let s := k % 100
    let k1 := k / 100
    let mi := k1 % 100
    let k2 := k1 / 100
    let h := k2 % 100
    let k3 := k2 / 100
    let d := k3 % 100
    let k4 := k3 / 100
    let mo := k4 % 100
    let y := k4 / 100
    toString y ++ "-" ++ pad2 mo ++ "-" ++ pad2 d ++ " " ++
      pad2 h ++ ":" ++ pad2 mi ++ ":" ++ pad2 s

/-! ## Numeric parsing -/

/-- Value of an unsigned decimal literal `digits[.digits]`. -/
def parseUnsigned (cs : List Char) : Option ℚ :=
  match splitOnChar '.' cs with
  | [ip] => (digitsToNat? ip).map (fun n => (n : ℚ))
  | [ip, fp] =>
    if ip = [] then
      (digitsToNat? fp).map (fun f => (f : ℚ) / (10 : ℚ) ^ fp.length)
    else
      match digitsToNat? ip, (if fp = [] then some 0 else digitsToNat? fp) with
      | some i, some f => some ((i : ℚ) + (f : ℚ) / (10 : ℚ) ^ fp.length)
      | _, _ => none
  | _ => none

/-- Modelled from pandas `to_numeric(..., errors="coerce")` restricted
to plain signed decimal literals; an absent or unparsable value
becomes `none` (NaN), never an exception. -/
def to_numeric (c : Cell) : Option ℚ :=
  match c with
  | none => none
  | some s =>
    match s.data with
    | '-' :: rest => (parseUnsigned rest).map (fun q => -q)
    | '+' :: rest => parseUnsigned rest
    | cs => parseUnsigned cs

/-! ## Report pipeline: loader / normalizer -/

/-- The `astype(str)` coercion of the channel column: a missing value
stringifies to the literal string "nan", a present cell to itself. -/
def channelStr : Cell → String
  | none => "nan"
  | some s => s

/-- One normalized row as produced by `load_scan`. -/
structure Row where
  timestamp : Option Nat
  ssid : String
  bssid : String
  channel : String
  rssi : Option ℚ
deriving DecidableEq

/-- The column-wise normalization of `load_scan`: parse timestamps and
rssi with coercion to missing, fill absent ssid/bssid with "", and
stringify the channel.  The text columns are modelled in the
object-dtype regime (cells kept verbatim), which is what read_csv
infers whenever the column contains at least one non-numeric present
value; the numeric-inference regimes of the bssid column, where
`astype(str)` reformats the cells, are modelled separately by
`bssidColKind` and `bssidCellStr` below for the claim that turns on
them. -/
def normalizeRow (r : CsvRow) : Row :=
  { timestamp := to_datetime r.timestamp
    ssid := r.ssid.getD ""
    bssid := r.bssid.getD ""
    channel := channelStr r.channel
    rssi := to_numeric r.rssi }

/-- The loader error: the Python code raises
SystemExit("CSV is missing columns: " plus the list); we keep the list
itself, which is what the message enumerates. -/
inductive LoadError where
  | schemaError (missing : List String)
deriving DecidableEq

/-- The loader `load_scan`: check the five required columns, fail with the exact
list of absent ones, otherwise normalize every row (no row is
dropped). -/
def load_scan (csv : Csv) : Except LoadError (List Row) :=
  let missing := missingColumns csv
  if missing = [] then .ok (csv.rows.map normalizeRow)
  else .error (.schemaError missing)

/-! ## Aggregation building blocks

pandas `min` / `max` / `mean` over a group skip missing values; we
aggregate over the list of present values of the group. -/

/-- Accumulate one value into an optional running minimum. -/
def accMin {α : Type} [LinearOrder α] (a : α) : Option α → Option α
  | none => some a
  | some b => some (min a b)

/-- Accumulate one value into an optional running maximum. -/
def accMax {α : Type} [LinearOrder α] (a : α) : Option α → Option α
  | none => some a
  | some b => some (max a b)

/-- Skip-missing minimum: `none` on the empty list. -/
def foldMin {α : Type} [LinearOrder α] (l : List α) : Option α :=
  l.foldr accMin none

/-- Skip-missing maximum: `none` on the empty list. -/
def foldMax {α : Type} [LinearOrder α] (l : List α) : Option α :=
  l.foldr accMax none

/-- Arithmetic mean of a list of rationals, `none` on the empty list
(pandas mean of an all-missing group is NaN). -/
def mean (l : List ℚ) : Option ℚ :=
  if l = [] then none else some (l.sum / l.length)

/-- Python `sorted(set(l))` for strings: de-duplicate and sort
lexicographically (code-point order). -/
def sortedStrings (l : List String) : List String :=
  List.insertionSort (· ≤ ·) l.dedup

/-! ## Report pipeline: summarize -/

/-- One output row of `summarize` (a DeviceSummary). -/
structure Summary where
  bssid : String
  frames : Nat
  first_seen : Option Nat
  last_seen : Option Nat
  min_rssi : Option ℚ
  avg_rssi : Option ℚ
  max_rssi : Option ℚ
  ssids : String
  channels : String
deriving DecidableEq

/-- The rows of one group of `df.groupby("bssid", dropna=False)`. -/
def groupRows (rows : List Row) (b : String) : List Row :=
  rows.filter (fun r => r.bssid == b)

/-- The sorted distinct non-empty ssids of a group:
`sorted(x for x in s if x as a set)`. -/
def ssidSetList (g : List Row) : List String :=
  sortedStrings ((g.map Row.ssid).filter (fun s => s != ""))

/-- The sorted distinct non-empty channel strings of a group:
`sorted(str(x) for x in s if str(x) as a set)` (the cells are already
strings after `astype(str)`). -/
def channelSetList (g : List Row) : List String :=
  sortedStrings ((g.map Row.channel).filter (fun s => s != ""))

/-- The aggregates of one bssid group, mirroring the named
aggregations of `summarize`. -/
def summaryOf (rows : List Row) (b : String) : Summary :=
  let g := groupRows rows b
  { bssid := b
    frames := g.length
    first_seen := foldMin (g.filterMap Row.timestamp)
    last_seen := foldMax (g.filterMap Row.timestamp)
    min_rssi := foldMin (g.filterMap Row.rssi)
    avg_rssi := mean (g.filterMap Row.rssi)
    max_rssi := foldMax (g.filterMap Row.rssi)
    ssids := joinSep ", " (ssidSetList g)
    channels := joinSep ", " (channelSetList g) }

/-- The group keys of `groupby("bssid", dropna=False)`: every distinct
bssid (including ""), in ascending order (pandas sorts group keys). -/
def groupKeys (rows : List Row) : List String :=
  sortedStrings (rows.map Row.bssid)

/-- The output order of `summarize`:
`sort_values(["frames", "bssid"], ascending=[False, True])`, i.e.
frames descending with ties broken by bssid ascending.  On the
distinct group keys this relation is a total order, so the sort is
fully determined. -/
def summaryLE (a b : Summary) : Prop :=
  b.frames < a.frames ∨ (a.frames = b.frames ∧ a.bssid ≤ b.bssid)

instance : DecidableRel summaryLE := fun a b =>
  inferInstanceAs (Decidable (b.frames < a.frames ∨ (a.frames = b.frames ∧ a.bssid ≤ b.bssid)))

instance : IsTotal Summary summaryLE where
  total a b := by
    rcases lt_trichotomy a.frames b.frames with h | h | h
    · exact Or.inr (Or.inl h)
    · rcases le_total a.bssid b.bssid with hb | hb
      · exact Or.inl (Or.inr ⟨h, hb⟩)
      · exact Or.inr (Or.inr ⟨h.symm, hb⟩)
    · exact Or.inl (Or.inl h)

instance : IsTrans Summary summaryLE where
  trans a b c hab hbc := by
    rcases hab with h1 | ⟨h1, h1b⟩
    · rcases hbc with h2 | ⟨h2, _⟩
      · exact Or.inl (h2.trans h1)
      · exact Or.inl (h2 ▸ h1)
    · rcases hbc with h2 | ⟨h2, h2b⟩
      · exact Or.inl (h1 ▸ h2)
      · exact Or.inr ⟨h1.trans h2, h1b.trans h2b⟩

/-- The aggregator `summarize`: group by bssid (missing keys were normalized to "",
and `dropna=False` keeps every key), aggregate, and sort by frames
descending / bssid ascending. -/
def summarize (rows : List Row) : List Summary :=
  List.insertionSort summaryLE ((groupKeys rows).map (summaryOf rows))

/-- The report pipeline up to aggregation: load, then summarize.  A
schema error propagates; no partial aggregation exists. -/
def docSummaries (csv : Csv) : Except LoadError (List Summary) :=
  (load_scan csv).map summarize

/-! ## Report pipeline: formatting (the MAC table of build_pdf) -/

/-- Round a rational to the nearest integer, ties to even (the
rounding used by Python float formatting). -/
def roundHalfEven (x : ℚ) : ℤ :=
  let f : ℤ := ⌊x⌋
  let r : ℚ := x - f
  if r < 1 / 2 then f
  else if 1 / 2 < r then f + 1
  else if f % 2 = 0 then f else f + 1

/-- Python `f"{x:.0f}"`: integer form, no decimal point.  A negative
value rounding to zero prints "-0". -/
def pyFormatF0 (x : ℚ) : String :=
  let n := roundHalfEven x
  if n = 0 ∧ x < 0 then "-0" else toString n

/-- Python `f"{x:.1f}"`: always exactly one digit after the decimal
point. -/
def pyFormatF1 (x : ℚ) : String :=
  let t := roundHalfEven (10 * x)
  let sign := if t < 0 ∨ (t = 0 ∧ x < 0) then "-" else ""
  sign ++ toString (t.natAbs / 10) ++ "." ++ toString (t.natAbs % 10)

/-- The Min RSSI / Max RSSI cell of the PDF table:
`f"{v:.0f}" if pd.notna(v) else ""`. -/
def docMinMaxStr : Option ℚ → String
  | none => ""
  | some q => pyFormatF0 q

/-- The Avg RSSI cell of the PDF table:
`f"{v:.1f}" if pd.notna(v) else ""`. -/
def docAvgStr : Option ℚ → String
  | none => ""
  | some q => pyFormatF1 q

/-- One rendered row of the PDF MAC table (`build_pdf`): index, bssid
with "(unknown)" placeholder for "", ssids truncated to 40
characters, frames, formatted timestamps, formatted rssi aggregates,
channels. -/
def docTableRow (i : Nat) (s : Summary) : List String :=
  [toString i,
   if s.bssid = "" then "(unknown)" else s.bssid,
   (s.ssids.data.take 40).asString,
   toString s.frames,
   fmt_ts s.first_seen,
   fmt_ts s.last_seen,
   docMinMaxStr s.min_rssi,
   docAvgStr s.avg_rssi,
   docMinMaxStr s.max_rssi,
   s.channels]

/-! ## Web pipeline: loader

The web app reads the CSV with no validation and no column coercion
at all (`load_df` is a bare `read_csv`). -/

/-- The web loader `load_df`: the raw rows, no schema check, no normalization. -/
def load_df (csv : Csv) : List CsvRow :=
  csv.rows

/-- Numeric value of a web rssi cell in the numeric-dtype regime: the
value the cell carries when `read_csv` has inferred a numeric rssi
column, which happens exactly when every present cell of the column is
a numeric literal.  When some cell is unparsable the column is object
dtype and the route's aggregation raises instead of using per-cell
values — that error path is modelled by `rssiColumnNumeric` and
`ssid_view_checked` below, which guard every use of this function. -/
def webNum (c : Cell) : Option ℚ :=
  to_numeric c

/-! ## Web pipeline: the regular-expression filter

`df["ssid"].str.contains(q, case=False, na=False)` interprets `q` as
a regular expression (`regex=True` is the pandas default) with
`re.IGNORECASE`.  We embed the fragment of Python regex syntax with
literal characters, backslash escapes, ".", the quantifiers "*", "+",
"?", alternation "|" and groups "(...)"; the remaining
metacharacters ("[", "]", braces, "^", "$") are outside the modelled
fragment and are treated as pattern errors. -/

/-- Regular expressions (Brzozowski-style matching). -/
inductive Re where
  | fail
  | eps
  | lit (c : Char)
  | any
  | seq (a b : Re)
  | alt (a b : Re)
  | star (a : Re)
deriving DecidableEq

/-- Does the regex accept the empty word? -/
def Re.nullable : Re → Bool
  | .fail => false
  | .eps => true
  | .lit _ => false
  | .any => false
  | .seq a b => a.nullable && b.nullable
  | .alt a b => a.nullable || b.nullable
  | .star _ => true

/-- Brzozowski derivative by one character. -/
def Re.deriv : Re → Char → Re
  | .fail, _ => .fail
  | .eps, _ => .fail
  | .lit c, d => if c = d then .eps else .fail
  | .any, _ => .eps
  | .seq a b, d =>
    if a.nullable then .alt (.seq (a.deriv d) b) (b.deriv d)
    else .seq (a.deriv d) b
  | .alt a b, d => .alt (a.deriv d) (b.deriv d)
  | .star a, d => .seq (a.deriv d) (.star a)

/-- Does the regex match some prefix of the word? -/
def Re.matchPre : Re → List Char → Bool
  | r, [] => r.nullable
  | r, c :: cs => r.nullable || (r.deriv c).matchPre cs

/-- Python `re.search`: does the regex match somewhere in the word? -/
def Re.search (r : Re) : List Char → Bool
  | [] => r.matchPre []
  | c :: cs => r.matchPre (c :: cs) || r.search cs

/-- The metacharacters of the modelled pattern syntax. -/
def isMeta (c : Char) : Bool :=
  c = '(' ∨ c = ')' ∨ c = '|' ∨ c = '*' ∨ c = '+' ∨ c = '?' ∨
  c = '.' ∨ c = '\\' ∨ c = '[' ∨ c = ']' ∨ c = '\x7b' ∨ c = '\x7d' ∨
  c = '^' ∨ c = '$'

/-- After parsing the body of a group, demand a closing paren. -/
def closeGroup : Option (Re × List Char) → Option (Re × List Char)
  | none => none
  | some (r, rest) =>
    match rest with
    | [] => none
    | d :: rest2 => if d = ')' then some (r, rest2) else none

/-- After parsing an atom, apply an optional quantifier. -/
def applyQuant : Option (Re × List Char) → Option (Re × List Char)
  | none => none
  | some (r, rest) =>
    match rest with
    | [] => some (r, [])
    | d :: rest2 =>
      if d = '*' then some (.star r, rest2)
      else if d = '+' then some (.seq r (.star r), rest2)
      else if d = '?' then some (.alt r .eps, rest2)
      else some (r, d :: rest2)

/-- Prepend a parsed item to the result of parsing the remaining
sequence. -/
def seqJoin (r : Re) : Option (Re × List Char) → Option (Re × List Char)
  | none => none
  | some (r2, rest2) => some (.seq r r2, rest2)

/-- An escaped character is a literal. -/
def escapeAtom : List Char → Option (Re × List Char)
  | [] => none
  | c2 :: rest2 => some (.lit c2, rest2)

mutual

/-- Parse an alternation `seq ('|' alt)?`. -/
def parseAltF : Nat → List Char → Option (Re × List Char)
  | 0, _ => none
  | fuel + 1, cs =>
    (parseSeqF fuel cs).bind (fun pr =>
      match pr.2 with
      | [] => some (pr.1, [])
      | d :: rest2 =>
        if d = '|' then
          (parseAltF fuel rest2).map (fun pr2 => (.alt pr.1 pr2.1, pr2.2))
        else some (pr.1, d :: rest2))

/-- Parse a (possibly empty) concatenation of items. -/
def parseSeqF : Nat → List Char → Option (Re × List Char)
  | 0, _ => none
  | fuel + 1, cs =>
    match cs with
    | [] => some (.eps, [])
    | c :: _ =>
      if c = ')' ∨ c = '|' then some (.eps, cs)
      else (parseItemF fuel cs).bind (fun pr => seqJoin pr.1 (parseSeqF fuel pr.2))

/-- Parse an atom followed by an optional quantifier. -/
def parseItemF : Nat → List Char → Option (Re × List Char)
  | 0, _ => none
  | fuel + 1, cs => applyQuant (parseAtomF fuel cs)

/-- Parse one atom: a group, ".", an escaped character, or a literal
(non-metacharacter). -/
def parseAtomF : Nat → List Char → Option (Re × List Char)
  | 0, _ => none
  | fuel + 1, cs =>
    match cs with
    | [] => none
    | c :: rest =>
      if c = '(' then closeGroup (parseAltF fuel rest)
      else if c = '.' then some (.any, rest)
      else if c = '\\' then escapeAtom rest
      else if isMeta c then none
      else some (.lit c, rest)

end

/-- Compile a pattern string; `none` models `re.error` (or a pattern
outside the modelled fragment). -/
def pyCompile (s : String) : Option Re :=
  match parseAltF (2 * s.data.length + 8) s.data with
  | some (r, []) => some r
  | _ => none

/-- The web route errors: a raised exception inside request handling —
an `re.error` from an invalid filter pattern in the index route, or
the TypeError/DataError pandas raises when `agg` computes a mean over
an object-dtype rssi column in the ssid_view route. -/
inductive WebError where
  | reError
  | aggError
deriving DecidableEq

/-! ## Web pipeline: the index route -/

/-- The row filter of the index route:
`q = request.args.get("q", "").strip()`, filter only `if q:`, then
case-insensitive regex search over `ssid.fillna("")`. -/
def indexFilteredRows (csv : Csv) (q : String) : Except WebError (List CsvRow) :=
  let qs := stripStr q
  if qs = "" then .ok csv.rows
  else
    match pyCompile (lowerStr qs) with
    | none => .error .reError
    | some r =>
      .ok (csv.rows.filter (fun row => r.search (lowerStr (row.ssid.getD "")).data))

/-- Stable-descending order on (ssid, count) pairs, the model of
`sort_values(ascending=False)`: pandas reverses the rows, applies a
stable ascending argsort, and reverses back, so equal counts keep
their previous (key-ascending) order.  Exact in the stable regime of
the underlying numpy sort. -/
def countGE (a b : String × Nat) : Prop := b.2 ≤ a.2

instance : DecidableRel countGE := fun a b =>
  inferInstanceAs (Decidable (b.2 ≤ a.2))

/-- The navigation counts `df.groupby("ssid").size().sort_values(ascending=False)`: group
keys are the distinct present ssids (`dropna=True` discards missing
ones), counts are group sizes, sorted by count descending. -/
def ssidCounts (rows : List CsvRow) : List (String × Nat) :=
  let keys := sortedStrings (rows.filterMap CsvRow.ssid)
  List.insertionSort countGE
    (keys.map (fun s => (s, (rows.filter (fun row => row.ssid == some s)).length)))

/-- The index route: filter by the query, then list
(ssid, frame count) pairs. -/
def index (csv : Csv) (q : String) : Except WebError (List (String × Nat)) :=
  (indexFilteredRows csv q).map ssidCounts

/-! ## Web pipeline: the ssid_view route -/

/-- One aggregated row of the ssid_view table.  Timestamps are raw
input strings (the web app never parses them, so min and max are
lexicographic on strings). -/
structure WebSummary where
  bssid : String
  frames : Nat
  first_seen : Option String
  last_seen : Option String
  min_rssi : Option ℚ
  avg_rssi : Option ℚ
  max_rssi : Option ℚ
  channels : String
deriving DecidableEq

/-- The exact-match row filter of ssid_view:
`df[df["ssid"].fillna("") == ssid]`. -/
def ssidViewRows (csv : Csv) (ssid : String) : List CsvRow :=
  csv.rows.filter (fun row => row.ssid.getD "" == ssid)

/-- Group keys of `df.groupby("bssid")` in the web app: `dropna`
defaults to True, so rows with a missing bssid belong to no group. -/
def webGroupKeys (rows : List CsvRow) : List String :=
  sortedStrings (rows.filterMap CsvRow.bssid)

/-- The rows of one web bssid group. -/
def webGroupRows (rows : List CsvRow) (b : String) : List CsvRow :=
  rows.filter (fun row => row.bssid == some b)

/-- The channel set of a web group:
`sorted(set(s.astype(str)))` — distinct stringified cells, with no
non-empty filter (unlike the report pipeline). -/
def webChannelList (g : List CsvRow) : List String :=
  sortedStrings (g.map (fun row => channelStr row.channel))

/-- The aggregates of one web bssid group, mirroring the named
aggregations of ssid_view. -/
def webSummaryOf (rows : List CsvRow) (b : String) : WebSummary :=
  let g := webGroupRows rows b
  { bssid := b
    frames := g.length
    first_seen := foldMin (g.filterMap CsvRow.timestamp)
    last_seen := foldMax (g.filterMap CsvRow.timestamp)
    min_rssi := foldMin (g.filterMap (fun row => webNum row.rssi))
    avg_rssi := mean (g.filterMap (fun row => webNum row.rssi))
    max_rssi := foldMax (g.filterMap (fun row => webNum row.rssi))
    channels := joinSep ", " (webChannelList g) }

/-- Frames-descending comparison on web summaries: the single sort key
of `sort_values("frames", ascending=False)` in the ssid_view route. -/
def webGE (a b : WebSummary) : Prop := b.frames ≤ a.frames

instance : DecidableRel webGE := fun a b =>
  inferInstanceAs (Decidable (b.frames ≤ a.frames))

instance : IsTotal WebSummary webGE :=
  ⟨fun a b => le_total b.frames a.frames⟩

instance : IsTrans WebSummary webGE :=
  ⟨fun _ _ _ hab hbc => le_trans hbc hab⟩

/-- The aggregated table of the ssid_view route before its sort: one
row per present bssid of the filtered rows, in ascending key order
(pandas groupby sorts the keys). -/
def ssid_view_agg (csv : Csv) (ssid : String) : List WebSummary :=
  (webGroupKeys (ssidViewRows csv ssid)).map (webSummaryOf (ssidViewRows csv ssid))

/-- What `sort_values("frames", ascending=False)` guarantees about its
result: a permutation of the input table ordered by frames descending.
The relative order of rows with equal frame counts is NOT specified —
it is whatever the underlying numpy sort produces, and the default
quicksort (introsort) is not stable beyond its small-array
insertion-sort regime — so the code promises nothing finer than
this contract. -/
def IsFramesDescSortOf (input output : List WebSummary) : Prop :=
  output.Perm input ∧ output.Sorted webGE

/-- The ssid_view route: filter to one ssid, group by bssid, and sort
by frames descending.  The sort is parameterized by the behavior `k`
of the underlying library sort, because the code fixes only the
`IsFramesDescSortOf` contract (no bssid key, no stability guarantee):
`ssid_view k csv ssid` is the route's output when the library sort
behaves as `k`. -/
def ssid_view (k : List WebSummary → List WebSummary) (csv : Csv)
    (ssid : String) : List WebSummary :=
  k (ssid_view_agg csv ssid)

/-- One admissible sort behavior: a stable frames-descending sort
(what the library produces in its small-array stable regime). -/
def stableFramesSort : List WebSummary → List WebSummary :=
  List.insertionSort webGE

/-- Another admissible sort behavior: one that reverses the relative
order of equal frame counts (as an unstable kernel, or a descending
sort implemented as a plain reversed ascending argsort, may do). -/
def tieReversingSort : List WebSummary → List WebSummary :=
  fun l => List.insertionSort webGE l.reverse

/-- Does `read_csv` infer a numeric rssi column for this input?  True
exactly when every present rssi cell is a numeric literal; otherwise
the column is object dtype (the cells stay text). -/
def rssiColumnNumeric (rows : List CsvRow) : Bool :=
  rows.all (fun row =>
    match row.rssi with
    | none => true
    | some s => (to_numeric (some s)).isSome)

/-- The ssid_view route including its aggregation error path: when the
rssi column is not numerically inferable, `agg` computes min/mean/max
over an object-dtype column and the mean raises
(TypeError/DataError), so the request fails instead of producing a
table; otherwise the route returns the `ssid_view` table. -/
def ssid_view_checked (k : List WebSummary → List WebSummary) (csv : Csv)
    (ssid : String) : Except WebError (List WebSummary) :=
  if rssiColumnNumeric csv.rows then .ok (ssid_view k csv ssid)
  else .error .aggError

/-! ## Web pipeline: template rendering -/

/-- Python `str()` of a float, modelled exactly for values that are
integral multiples of 1/10 (the only values our theorems reach);
other rationals fall back to an unspecified textual form.  The
reduced denominator of such a value divides 10, and the tenths
numerator is computed with integer arithmetic. -/
def pyFloatRepr (q : ℚ) : String :=
  if 10 % q.den = 0 then
    let t : ℤ := q.num * ((10 / q.den : Nat) : ℤ)
    (if t < 0 then "-" else "") ++ toString (t.natAbs / 10) ++ "." ++ toString (t.natAbs % 10)
  else toString q.num ++ "/" ++ toString q.den

/-- Python `round(x, 1)`: ties-to-even rounding to one decimal. -/
def pyRound1 (q : ℚ) : ℚ :=
  (roundHalfEven (10 * q) : ℚ) / 10

/-- The Min/Max RSSI cell of the web table: the raw aggregate is
printed by the template, so a missing value renders as "nan" and a
present float in its default textual form. -/
def webMinMaxStr : Option ℚ → String
  | none => "nan"
  | some q => pyFloatRepr q

/-- The Avg RSSI cell of the web table:
`round(v, 1) if pd.notna(v) else ""`. -/
def webAvgStr : Option ℚ → String
  | none => ""
  | some q => pyFloatRepr (pyRound1 q)

/-- A raw optional string cell as printed by the template (an
all-missing group's min/max is NaN, printed "nan"). -/
def webCellStr : Option String → String
  | none => "nan"
  | some s => s

/-- One rendered row of the web MAC table. -/
def webTableRow (s : WebSummary) : List String :=
  [s.bssid,
   toString s.frames,
   webCellStr s.first_seen,
   webCellStr s.last_seen,
   s.channels,
   webMinMaxStr s.min_rssi,
   webAvgStr s.avg_rssi,
   webMinMaxStr s.max_rssi]

/-! ## Column dtype inference for the bssid column

`load_scan` starts with `pd.read_csv`, whose column-dtype inference
matters for bssid: a column in which EVERY present value is
numeric-looking is inferred as int64 (no missing cell, all integer
literals) or float64 (otherwise), and the subsequent
`fillna("").astype(str)` then renders the parsed numbers, not the
original text.  Only an object-dtype column (one with at least one
non-numeric present cell — every real MAC address) keeps its cells
verbatim.  The numeric-literal test below models the plain decimal
fragment (exotic spellings such as exponents are outside the
model). -/

/-- The dtype regimes read_csv can infer for a text column. -/
inductive ColKind where
  | intCol
  | floatCol
  | objCol
deriving DecidableEq

/-- Integer-literal test (optional sign, then digits): the form the
read_csv parser stores as int64. -/
def isIntCell (s : String) : Bool :=
  match s.data with
  | '-' :: rest => !rest.isEmpty && rest.all Char.isDigit
  | '+' :: rest => !rest.isEmpty && rest.all Char.isDigit
  | cs => !cs.isEmpty && cs.all Char.isDigit

/-- The integer value of an integer-literal cell. -/
def intCellVal (s : String) : ℤ :=
  match s.data with
  | '-' :: rest => -(Int.ofNat ((digitsToNat? rest).getD 0))
  | '+' :: rest => Int.ofNat ((digitsToNat? rest).getD 0)
  | cs => Int.ofNat ((digitsToNat? cs).getD 0)

/-- The dtype read_csv infers for the bssid column of an input:
int64 when every cell is present and an integer literal, float64 when
every present cell is numeric but some is missing or fractional, and
object otherwise. -/
def bssidColKind (rows : List CsvRow) : ColKind :=
  let cells := rows.filterMap CsvRow.bssid
  if cells.all (fun s => (to_numeric (some s)).isSome) then
    (if rows.all (fun r => r.bssid.isSome) && cells.all isIntCell then .intCol
     else .floatCol)
  else .objCol

/-- The text a bssid cell carries after read_csv inference followed by
`fillna("").astype(str)`: verbatim in the object regime, the canonical
integer form in the int64 regime (leading zeros and signs
normalized), and the float form in the float64 regime (modelled by
`pyFloatRepr`).  A missing cell is filled with "" before the string
cast in every regime. -/
def bssidCellStr (kind : ColKind) (c : Cell) : String :=
  match c with
  | none => ""
  | some s =>
    match kind with
    | .objCol => s
    | .intCol => toString (intCellVal s)
    | .floatCol => pyFloatRepr ((to_numeric (some s)).getD 0)

/-- The bssid column exactly as `load_scan` produces it, dtype
inference included. -/
def loadBssidColumn (rows : List CsvRow) : List String :=
  rows.map (fun r => bssidCellStr (bssidColKind rows) r.bssid)

/-! ## Lemmas: permutation invariance of the aggregates -/

theorem accMin_comm {α : Type} [LinearOrder α] (x y : α) (o : Option α) :
    accMin x (accMin y o) = accMin y (accMin x o) := by
  cases o <;> simp [accMin, min_comm, min_left_comm]

theorem accMax_comm {α : Type} [LinearOrder α] (x y : α) (o : Option α) :
    accMax x (accMax y o) = accMax y (accMax x o) := by
  cases o <;> simp [accMax, max_comm, max_left_comm]

theorem foldMin_perm {α : Type} [LinearOrder α] {l₁ l₂ : List α}
    (h : l₁.Perm l₂) : foldMin l₁ = foldMin l₂ := by
  induction h with
  | nil => rfl
  | cons x _ ih => simp only [foldMin, List.foldr_cons] at *; rw [ih]
  | swap x y l => simp only [foldMin, List.foldr_cons]; exact accMin_comm y x _
  | trans _ _ ih1 ih2 => exact ih1.trans ih2

theorem foldMax_perm {α : Type} [LinearOrder α] {l₁ l₂ : List α}
    (h : l₁.Perm l₂) : foldMax l₁ = foldMax l₂ := by
  induction h with
  | nil => rfl
  | cons x _ ih => simp only [foldMax, List.foldr_cons] at *; rw [ih]
  | swap x y l => simp only [foldMax, List.foldr_cons]; exact accMax_comm y x _
  | trans _ _ ih1 ih2 => exact ih1.trans ih2

theorem mean_perm {l₁ l₂ : List ℚ} (h : l₁.Perm l₂) : mean l₁ = mean l₂ := by
  have hc : (l₁ = []) ↔ (l₂ = []) := by
    rw [← List.length_eq_zero, ← List.length_eq_zero, h.length_eq]
  unfold mean
  rw [h.sum_eq, h.length_eq, if_congr hc rfl rfl]

theorem sortedStrings_perm {l₁ l₂ : List String} (h : l₁.Perm l₂) :
    sortedStrings l₁ = sortedStrings l₂ :=
  List.eq_of_perm_of_sorted
    ((List.perm_insertionSort _ _).trans ((h.dedup).trans (List.perm_insertionSort _ _).symm))
    (List.sorted_insertionSort _ _) (List.sorted_insertionSort _ _)

theorem mem_sortedStrings {l : List String} {s : String} :
    s ∈ sortedStrings l ↔ s ∈ l := by
  unfold sortedStrings
  rw [List.mem_insertionSort, List.mem_dedup]

theorem sortedStrings_sorted (l : List String) :
    (sortedStrings l).Sorted (· ≤ ·) :=
  List.sorted_insertionSort _ _

theorem sortedStrings_nodup (l : List String) : (sortedStrings l).Nodup :=
  ((List.perm_insertionSort _ _).nodup_iff).mpr l.nodup_dedup

/-! ## Lemmas: counting rows across groups -/

theorem sum_map_add {α : Type} (l : List α) (f g : α → Nat) :
    (l.map (fun a => f a + g a)).sum = (l.map f).sum + (l.map g).sum := by
  induction l with
  | nil => rfl
  | cons a t ih => simp only [List.map_cons, List.sum_cons, ih]; omega

theorem sum_map_ite_count {α : Type} [DecidableEq α] (x : α) (l : List α) :
    (l.map (fun a => if a = x then (1 : Nat) else 0)).sum = l.count x := by
  induction l with
  | nil => rfl
  | cons a t ih =>
    rw [List.map_cons, List.sum_cons, List.count_cons, ih]
    by_cases h : a = x
    · subst h; simp [Nat.add_comm]
    · have h2 : (x == a) = false := by
        simp only [beq_eq_false_iff_ne, ne_eq]
        exact fun e => h e.symm
      simp [h, h2]

theorem sum_count_dedup {α : Type} [DecidableEq α] (l : List α) :
    (l.dedup.map (fun a => l.count a)).sum = l.length := by
  induction l with
  | nil => rfl
  | cons x t ih =>
    have hmap : ∀ m : List α, (m.map fun a => (x :: t).count a) =
        m.map (fun a => t.count a + if a = x then 1 else 0) := by
      intro m
      apply List.map_congr_left
      intro a _
      rw [List.count_cons]
      by_cases h : a = x
      · simp [h]
      · have h2 : (a == x) = false := by simp [h]
        simp only [h2, h, if_false, Bool.false_eq_true]
        simp
        exact fun e => h e.symm
    by_cases hx : x ∈ t
    · rw [List.dedup_cons_of_mem hx, hmap, sum_map_add, ih, sum_map_ite_count,
        List.count_dedup, if_pos hx, List.length_cons]
    · rw [List.dedup_cons_of_not_mem hx, List.map_cons, List.sum_cons, hmap,
        sum_map_add, ih, sum_map_ite_count, List.count_dedup, if_neg hx,
        List.count_cons_self, List.count_eq_zero_of_not_mem hx, List.length_cons]
      omega

theorem length_filter_eq_count_map {α : Type} (rows : List α) (f : α → String)
    (b : String) :
    (rows.filter (fun r => f r == b)).length = (rows.map f).count b := by
  induction rows with
  | nil => rfl
  | cons r t ih =>
    by_cases h : f r = b <;>
      simp [List.filter_cons, List.count_cons, h, ih]

theorem length_filter_eq_count_filterMap {α β : Type} [DecidableEq β]
    (rows : List α) (f : α → Option β) (b : β) :
    (rows.filter (fun r => f r == some b)).length = (rows.filterMap f).count b := by
  induction rows with
  | nil => rfl
  | cons r t ih =>
    cases h : f r with
    | none => simp [List.filter_cons, List.filterMap_cons, h, ih]
    | some v =>
      by_cases hv : v = b <;>
        simp [List.filter_cons, List.filterMap_cons, List.count_cons, h, hv, ih]

theorem filterMap_length_eq_filter_isSome {α β : Type} (rows : List α)
    (f : α → Option β) :
    (rows.filterMap f).length = (rows.filter (fun r => (f r).isSome)).length := by
  induction rows with
  | nil => rfl
  | cons r t ih =>
    cases h : f r <;> simp [List.filterMap_cons, List.filter_cons, h, ih]

/-! ## Lemmas: characterization of the skip-missing aggregates -/

theorem foldMin_eq_none_iff {α : Type} [LinearOrder α] (l : List α) :
    foldMin l = none ↔ l = [] := by
  cases l with
  | nil => simp [foldMin]
  | cons x t =>
    simp only [foldMin, List.foldr_cons]
    cases h : List.foldr accMin none t <;> simp [accMin]

theorem foldMax_eq_none_iff {α : Type} [LinearOrder α] (l : List α) :
    foldMax l = none ↔ l = [] := by
  cases l with
  | nil => simp [foldMax]
  | cons x t =>
    simp only [foldMax, List.foldr_cons]
    cases h : List.foldr accMax none t <;> simp [accMax]

theorem mean_eq_none_iff (l : List ℚ) : mean l = none ↔ l = [] := by
  unfold mean
  by_cases h : l = [] <;> simp [h]

theorem foldMin_le {α : Type} [LinearOrder α] {l : List α} {m : α}
    (hm : foldMin l = some m) : ∀ x ∈ l, m ≤ x := by
  induction l generalizing m with
  | nil => simp [foldMin] at hm
  | cons a t ih =>
    simp only [foldMin, List.foldr_cons] at hm
    cases h : List.foldr accMin none t with
    | none =>
      rw [h] at hm
      have ht : t = [] := (foldMin_eq_none_iff t).mp h
      subst ht
      simp [accMin] at hm
      simp [hm]
    | some m2 =>
      rw [h] at hm
      simp [accMin] at hm
      intro x hx
      rcases List.mem_cons.mp hx with rfl | hx2
      · exact hm ▸ min_le_left _ _
      · exact le_trans (hm ▸ min_le_right _ _) (ih h x hx2)

theorem le_foldMax {α : Type} [LinearOrder α] {l : List α} {m : α}
    (hm : foldMax l = some m) : ∀ x ∈ l, x ≤ m := by
  induction l generalizing m with
  | nil => simp [foldMax] at hm
  | cons a t ih =>
    simp only [foldMax, List.foldr_cons] at hm
    cases h : List.foldr accMax none t with
    | none =>
      rw [h] at hm
      have ht : t = [] := (foldMax_eq_none_iff t).mp h
      subst ht
      simp [accMax] at hm
      simp [hm]
    | some m2 =>
      rw [h] at hm
      simp [accMax] at hm
      intro x hx
      rcases List.mem_cons.mp hx with rfl | hx2
      · exact hm ▸ le_max_left _ _
      · exact le_trans (ih h x hx2) (hm ▸ le_max_right _ _)

theorem mean_eq_some {l : List ℚ} {av : ℚ} (h : mean l = some av) :
    l ≠ [] ∧ av = l.sum / l.length := by
  unfold mean at h
  by_cases hl : l = []
  · simp [hl] at h
  · simp [hl] at h
    exact ⟨hl, h.symm⟩

/-! ## Lemmas: permutation invariance of whole summaries -/

theorem summaryOf_perm {rows rows' : List Row} (h : rows.Perm rows')
    (b : String) : summaryOf rows b = summaryOf rows' b := by
  have hg : (groupRows rows b).Perm (groupRows rows' b) := h.filter _
  unfold summaryOf groupRows ssidSetList channelSetList at *
  simp only []
  congr 1
  · exact hg.length_eq
  · exact foldMin_perm (hg.filterMap _)
  · exact foldMax_perm (hg.filterMap _)
  · exact foldMin_perm (hg.filterMap _)
  · exact mean_perm (hg.filterMap _)
  · exact foldMax_perm (hg.filterMap _)
  · exact congrArg _ (sortedStrings_perm ((hg.map _).filter _))
  · exact congrArg _ (sortedStrings_perm ((hg.map _).filter _))

theorem groupKeys_perm {rows rows' : List Row} (h : rows.Perm rows') :
    groupKeys rows = groupKeys rows' :=
  sortedStrings_perm (h.map _)

theorem summarize_perm {rows rows' : List Row} (h : rows.Perm rows') :
    summarize rows = summarize rows' := by
  unfold summarize
  rw [groupKeys_perm h]
  congr 1
  exact List.map_congr_left (fun b _ => summaryOf_perm h b)

theorem webSummaryOf_perm {rows rows' : List CsvRow} (h : rows.Perm rows')
    (b : String) : webSummaryOf rows b = webSummaryOf rows' b := by
  have hg : (webGroupRows rows b).Perm (webGroupRows rows' b) := h.filter _
  unfold webSummaryOf webGroupRows webChannelList at *
  simp only []
  congr 1
  · exact hg.length_eq
  · exact foldMin_perm (hg.filterMap _)
  · exact foldMax_perm (hg.filterMap _)
  · exact foldMin_perm (hg.filterMap _)
  · exact mean_perm (hg.filterMap _)
  · exact foldMax_perm (hg.filterMap _)
  · exact congrArg _ (sortedStrings_perm (hg.map _))

theorem ssid_view_agg_perm {csv csv' : Csv} (h : csv.rows.Perm csv'.rows)
    (ssid : String) : ssid_view_agg csv ssid = ssid_view_agg csv' ssid := by
  unfold ssid_view_agg
  have hr : (ssidViewRows csv ssid).Perm (ssidViewRows csv' ssid) := h.filter _
  have hk : webGroupKeys (ssidViewRows csv ssid) = webGroupKeys (ssidViewRows csv' ssid) :=
    sortedStrings_perm (hr.filterMap _)
  rw [hk]
  exact List.map_congr_left (fun b _ => webSummaryOf_perm hr b)

theorem ssid_view_perm (k : List WebSummary → List WebSummary)
    {csv csv' : Csv} (h : csv.rows.Perm csv'.rows) (ssid : String) :
    ssid_view k csv ssid = ssid_view k csv' ssid := by
  unfold ssid_view
  rw [ssid_view_agg_perm h]

/-! ## Lemmas: the order of the web aggregation

The route sorts only by frames: the code fixes the
`IsFramesDescSortOf` contract and nothing finer, so the order facts
provable of the route are frames-descending sortedness (for every
admissible sort behavior) and the key-ascending order of the table
the sort receives. -/

/-- The lexicographic order frames-descending / bssid-ascending on
web summaries (the full ordering invariant the spec claims). -/
def webLex (a b : WebSummary) : Prop :=
  b.frames < a.frames ∨ (a.frames = b.frames ∧ a.bssid ≤ b.bssid)

instance : DecidableRel webLex := fun a b =>
  inferInstanceAs (Decidable (b.frames < a.frames ∨ (a.frames = b.frames ∧ a.bssid ≤ b.bssid)))

theorem webSummaryOf_bssid (rows : List CsvRow) (b : String) :
    (webSummaryOf rows b).bssid = b := rfl

theorem ssid_view_agg_pairwise_bssid (csv : Csv) (ssid : String) :
    (ssid_view_agg csv ssid).Pairwise (fun a b => a.bssid < b.bssid) := by
  unfold ssid_view_agg
  rw [List.pairwise_map]
  have h1 : (webGroupKeys (ssidViewRows csv ssid)).Sorted (· < ·) :=
    (sortedStrings_sorted _).lt_of_le (sortedStrings_nodup _)
  exact h1.imp (fun {x y} h => by
    simpa only [webSummaryOf_bssid] using h)

theorem stableFramesSort_perm (l : List WebSummary) :
    (stableFramesSort l).Perm l :=
  List.perm_insertionSort _ _

theorem stableFramesSort_admissible (l : List WebSummary) :
    IsFramesDescSortOf l (stableFramesSort l) :=
  ⟨List.perm_insertionSort _ _, List.sorted_insertionSort _ _⟩

/-! ## Lemmas: regular expression search of literal patterns

A pattern without metacharacters compiles to a sequence of literal
characters, and searching for it is exactly the case-folded substring
test the spec describes. -/

/-- The regex matching a fixed character sequence literally. -/
def litRe : List Char → Re
  | [] => .eps
  | c :: cs => .seq (.lit c) (litRe cs)

theorem matchPre_fail (cs : List Char) : Re.matchPre .fail cs = false := by
  induction cs with
  | nil => rfl
  | cons c t ih => simp [Re.matchPre, Re.deriv, Re.nullable, ih]

theorem matchPre_seq_fail (b : Re) (cs : List Char) :
    Re.matchPre (.seq .fail b) cs = false := by
  induction cs with
  | nil => rfl
  | cons c t ih => simp [Re.matchPre, Re.deriv, Re.nullable, ih]

theorem matchPre_alt (a b : Re) (cs : List Char) :
    Re.matchPre (.alt a b) cs = (Re.matchPre a cs || Re.matchPre b cs) := by
  induction cs generalizing a b with
  | nil => rfl
  | cons c t ih =>
    simp only [Re.matchPre, Re.deriv, Re.nullable, ih]
    cases Re.nullable a <;> cases Re.nullable b <;> simp

theorem matchPre_seq_eps (b : Re) (cs : List Char) :
    Re.matchPre (.seq .eps b) cs = Re.matchPre b cs := by
  cases cs with
  | nil => simp [Re.matchPre, Re.nullable]
  | cons c t =>
    simp only [Re.matchPre, Re.deriv, Re.nullable, Bool.true_and, if_pos]
    rw [matchPre_alt, matchPre_seq_fail]
    simp

/-- Case-folded-view substring test: does the needle occur
contiguously in the haystack?  This is the predicate the spec means
by "contains as a substring". -/
def containsSeq (p : List Char) : List Char → Bool
  | [] => p.isEmpty
  | c :: cs => p.isPrefixOf (c :: cs) || containsSeq p cs

theorem litRe_matchPre (p cs : List Char) :
    Re.matchPre (litRe p) cs = p.isPrefixOf cs := by
  induction p generalizing cs with
  | nil =>
    cases cs <;> simp [litRe, Re.matchPre, Re.nullable, List.isPrefixOf]
  | cons c p ih =>
    cases cs with
    | nil => simp [litRe, Re.matchPre, Re.nullable, List.isPrefixOf]
    | cons d t =>
      have h1 : Re.matchPre (litRe (c :: p)) (d :: t) =
          Re.matchPre (Re.seq (if c = d then Re.eps else Re.fail) (litRe p)) t := by
        simp [litRe, Re.matchPre, Re.deriv, Re.nullable]
      rw [h1]
      by_cases h : c = d
      · rw [if_pos h, matchPre_seq_eps, ih]
        simp [List.isPrefixOf, h]
      · rw [if_neg h, matchPre_seq_fail]
        have hbeq : (c == d) = false := by simp [h]
        simp [List.isPrefixOf, hbeq]

theorem litRe_search (p cs : List Char) :
    Re.search (litRe p) cs = containsSeq p cs := by
  induction cs with
  | nil =>
    cases p <;>
      simp [Re.search, Re.matchPre, litRe, Re.nullable, containsSeq, List.isEmpty]
  | cons c t ih =>
    simp only [Re.search, containsSeq, litRe_matchPre, ih]

/-! ## Lemmas: parsing a metacharacter-free pattern -/

theorem parseAtomF_lit (fuel : Nat) (c : Char) (cs : List Char)
    (hc : isMeta c = false) :
    parseAtomF (fuel + 1) (c :: cs) = some (.lit c, cs) := by
  have h1 : c ≠ '(' := fun e => by subst e; simp [isMeta] at hc
  have h2 : c ≠ '.' := fun e => by subst e; simp [isMeta] at hc
  have h3 : c ≠ '\\' := fun e => by subst e; simp [isMeta] at hc
  rw [parseAtomF]
  rw [if_neg h1, if_neg h2, if_neg h3, hc]
  simp

theorem parseItemF_lit (fuel : Nat) (c : Char) (cs : List Char)
    (hc : isMeta c = false) (hcs : ∀ d ∈ cs, isMeta d = false) :
    parseItemF (fuel + 2) (c :: cs) = some (.lit c, cs) := by
  rw [show fuel + 2 = (fuel + 1) + 1 from rfl, parseItemF,
    parseAtomF_lit fuel c cs hc]
  cases cs with
  | nil => rfl
  | cons d ds =>
    have hd : isMeta d = false := hcs d (List.mem_cons_self d ds)
    have h1 : d ≠ '*' := fun e => by subst e; simp [isMeta] at hd
    have h2 : d ≠ '+' := fun e => by subst e; simp [isMeta] at hd
    have h3 : d ≠ '?' := fun e => by subst e; simp [isMeta] at hd
    simp only [applyQuant, if_neg h1, if_neg h2, if_neg h3]

theorem parseSeqF_lit (cs : List Char) (hcs : ∀ d ∈ cs, isMeta d = false) :
    ∀ fuel, cs.length + 3 ≤ fuel → parseSeqF fuel cs = some (litRe cs, []) := by
  induction cs with
  | nil =>
    intro fuel hf
    match fuel, hf with
    | f + 1, _ => rw [parseSeqF]; rfl
  | cons c t ih =>
    intro fuel hf
    match fuel, hf with
    | f + 1, hf =>
      have hc : isMeta c = false := hcs c (List.mem_cons_self c t)
      have h1 : ¬(c = ')' ∨ c = '|') := by
        rintro (rfl | rfl) <;> simp [isMeta] at hc
      have hflen : t.length + 3 ≤ f := by
        have h2 := hf
        rw [List.length_cons] at h2
        omega
      obtain ⟨f2, rfl⟩ : ∃ f2, f = f2 + 2 := ⟨f - 2, by omega⟩
      rw [parseSeqF]
      rw [if_neg h1]
      rw [parseItemF_lit f2 c t hc (fun d hd => hcs d (List.mem_cons_of_mem c hd))]
      rw [Option.some_bind]
      rw [ih (fun d hd => hcs d (List.mem_cons_of_mem c hd)) (f2 + 2) hflen]
      rfl

theorem parseAltF_lit (cs : List Char) (hcs : ∀ d ∈ cs, isMeta d = false)
    (fuel : Nat) (hf : cs.length + 4 ≤ fuel) :
    parseAltF fuel cs = some (litRe cs, []) := by
  match fuel, hf with
  | f + 1, hf =>
    rw [parseAltF]
    rw [parseSeqF_lit cs hcs f (by omega), Option.some_bind]

/-- A pattern without metacharacters compiles to its literal regex. -/
theorem pyCompile_lit (s : String) (hs : ∀ d ∈ s.data, isMeta d = false) :
    pyCompile s = some (litRe s.data) := by
  unfold pyCompile
  rw [parseAltF_lit s.data hs _ (by omega)]

/-! ## Lemmas: frame counting -/

theorem summarize_frames_sum (rows : List Row) :
    ((summarize rows).map Summary.frames).sum = rows.length := by
  unfold summarize
  rw [((List.perm_insertionSort summaryLE _).map Summary.frames).sum_eq, List.map_map]
  have hkeys : (groupKeys rows).Perm ((rows.map Row.bssid).dedup) := by
    unfold groupKeys sortedStrings
    exact List.perm_insertionSort _ _
  rw [(hkeys.map _).sum_eq]
  have hfun : ((rows.map Row.bssid).dedup.map (Summary.frames ∘ summaryOf rows)) =
      (rows.map Row.bssid).dedup.map (fun b => (rows.map Row.bssid).count b) := by
    apply List.map_congr_left
    intro b _
    show (groupRows rows b).length = _
    unfold groupRows
    rw [length_filter_eq_count_map]
  rw [hfun, sum_count_dedup, List.length_map]

theorem ssid_view_frames_sum (k : List WebSummary → List WebSummary)
    (hk : ∀ l, (k l).Perm l) (csv : Csv) (ssid : String) :
    ((ssid_view k csv ssid).map WebSummary.frames).sum =
      ((ssidViewRows csv ssid).filter (fun r => r.bssid.isSome)).length := by
  unfold ssid_view
  rw [((hk _).map WebSummary.frames).sum_eq]
  unfold ssid_view_agg
  rw [List.map_map]
  have hkeys : (webGroupKeys (ssidViewRows csv ssid)).Perm
      (((ssidViewRows csv ssid).filterMap CsvRow.bssid).dedup) := by
    unfold webGroupKeys sortedStrings
    exact List.perm_insertionSort _ _
  rw [(hkeys.map _).sum_eq]
  have hfun : ((((ssidViewRows csv ssid).filterMap CsvRow.bssid).dedup).map
        (WebSummary.frames ∘ webSummaryOf (ssidViewRows csv ssid))) =
      (((ssidViewRows csv ssid).filterMap CsvRow.bssid).dedup).map
        (fun b => ((ssidViewRows csv ssid).filterMap CsvRow.bssid).count b) := by
    apply List.map_congr_left
    intro b _
    show (webGroupRows (ssidViewRows csv ssid) b).length = _
    unfold webGroupRows
    rw [length_filter_eq_count_filterMap]
  rw [hfun, sum_count_dedup, filterMap_length_eq_filter_isSome]

/-! ## Lemmas: schema checking -/

theorem mem_missingColumns (csv : Csv) (c : String) :
    c ∈ missingColumns csv ↔ (c ∈ expectedColumns ∧ c ∉ csv.columns) := by
  unfold missingColumns
  rw [List.mem_filter]
  simp

/-! ## Lemmas: decoding the timestamp key -/

theorem fmt_ts_tsKey (y mo d h mi s : Nat)
    (hmo : mo ≤ 12) (hd : d ≤ 31)
    (hh : h ≤ 23) (hmi : mi ≤ 59) (hs : s ≤ 59) :
    fmt_ts (some (tsKey y mo d h mi s)) =
      toString y ++ "-" ++ pad2 mo ++ "-" ++ pad2 d ++ " " ++
        pad2 h ++ ":" ++ pad2 mi ++ ":" ++ pad2 s := by
  have e1 : tsKey y mo d h mi s % 100 = s := by unfold tsKey; omega
  have e2 : tsKey y mo d h mi s / 100 % 100 = mi := by unfold tsKey; omega
  have e3 : tsKey y mo d h mi s / 100 / 100 % 100 = h := by unfold tsKey; omega
  have e4 : tsKey y mo d h mi s / 100 / 100 / 100 % 100 = d := by unfold tsKey; omega
  have e5 : tsKey y mo d h mi s / 100 / 100 / 100 / 100 % 100 = mo := by
    unfold tsKey; omega
  have e6 : tsKey y mo d h mi s / 100 / 100 / 100 / 100 / 100 = y := by
    unfold tsKey; omega
  show toString (tsKey y mo d h mi s / 100 / 100 / 100 / 100 / 100) ++ "-" ++
      pad2 (tsKey y mo d h mi s / 100 / 100 / 100 / 100 % 100) ++ "-" ++
      pad2 (tsKey y mo d h mi s / 100 / 100 / 100 % 100) ++ " " ++
      pad2 (tsKey y mo d h mi s / 100 / 100 % 100) ++ ":" ++
      pad2 (tsKey y mo d h mi s / 100 % 100) ++ ":" ++
      pad2 (tsKey y mo d h mi s % 100) = _
  rw [e1, e2, e3, e4, e5, e6]

/-! ## Lemmas: bounds on the mean -/

theorem summaryOf_rssi_bounds (rows : List Row) (b : String) (mn av mx : ℚ)
    (hmn : (summaryOf rows b).min_rssi = some mn)
    (hav : (summaryOf rows b).avg_rssi = some av)
    (hmx : (summaryOf rows b).max_rssi = some mx) :
    mn ≤ av ∧ av ≤ mx ∧
      av = ((groupRows rows b).filterMap Row.rssi).sum /
        ((groupRows rows b).filterMap Row.rssi).length := by
  have hmn2 : foldMin ((groupRows rows b).filterMap Row.rssi) = some mn := hmn
  have hav2 : mean ((groupRows rows b).filterMap Row.rssi) = some av := hav
  have hmx2 : foldMax ((groupRows rows b).filterMap Row.rssi) = some mx := hmx
  obtain ⟨hne, hval⟩ := mean_eq_some hav2
  have hlen : 0 < (((groupRows rows b).filterMap Row.rssi).length : ℚ) := by
    have := List.length_pos.mpr hne
    exact_mod_cast this
  refine ⟨?_, ?_, hval⟩
  · rw [hval, le_div_iff₀ hlen]
    calc mn * (((groupRows rows b).filterMap Row.rssi).length : ℚ)
        = ((groupRows rows b).filterMap Row.rssi).length • mn := by
          rw [nsmul_eq_mul, mul_comm]
      _ ≤ ((groupRows rows b).filterMap Row.rssi).sum :=
          List.card_nsmul_le_sum _ _ (foldMin_le hmn2)
  · rw [hval, div_le_iff₀ hlen]
    calc ((groupRows rows b).filterMap Row.rssi).sum
        ≤ ((groupRows rows b).filterMap Row.rssi).length • mx :=
          List.sum_le_card_nsmul _ _ (le_foldMax hmx2)
      _ = mx * (((groupRows rows b).filterMap Row.rssi).length : ℚ) := by
          rw [nsmul_eq_mul, mul_comm]

/-! ## Lemmas: group keys in the output -/

theorem summaryOf_bssid (rows : List Row) (b : String) :
    (summaryOf rows b).bssid = b := rfl

theorem mem_summarize_bssid (rows : List Row) (b : String) :
    b ∈ (summarize rows).map Summary.bssid ↔ b ∈ rows.map Row.bssid := by
  unfold summarize
  constructor
  · intro hb
    obtain ⟨s, hs, rfl⟩ := List.mem_map.mp hb
    obtain ⟨k, hk, rfl⟩ := List.mem_map.mp ((List.mem_insertionSort _).mp hs)
    rw [summaryOf_bssid]
    exact mem_sortedStrings.mp hk
  · intro hb
    exact List.mem_map.mpr ⟨summaryOf rows b,
      (List.mem_insertionSort _).mpr (List.mem_map_of_mem _ (mem_sortedStrings.mpr hb)),
      rfl⟩

theorem summaryOf_mem_summarize (rows : List Row) (b : String)
    (hb : b ∈ rows.map Row.bssid) : summaryOf rows b ∈ summarize rows := by
  unfold summarize
  rw [List.mem_insertionSort]
  exact List.mem_map_of_mem _ (mem_sortedStrings.mpr hb)

/-! ## Concrete inputs used by counterexamples and witnesses -/

/-- The scenario input of the spec: three frames of device AA:BB. -/
def csvA : Csv := ⟨expectedColumns,
  [⟨some "2024-01-02 03:04:05", some "Cafe", some "AA:BB", some "6", some "-40"⟩,
   ⟨some "2024-01-02 03:04:06", some "Cafe", some "AA:BB", some "6", some "-60"⟩,
   ⟨some "2024-01-02 03:04:07", none, some "AA:BB", some "11", some "-50"⟩]⟩

/-- The same observations as `csvA` with the rows rotated. -/
def csvA2 : Csv := ⟨expectedColumns,
  [⟨some "2024-01-02 03:04:07", none, some "AA:BB", some "11", some "-50"⟩,
   ⟨some "2024-01-02 03:04:05", some "Cafe", some "AA:BB", some "6", some "-40"⟩,
   ⟨some "2024-01-02 03:04:06", some "Cafe", some "AA:BB", some "6", some "-60"⟩]⟩

/-- One frame whose ssid is "X" but whose bssid is missing. -/
def csvC1 : Csv := ⟨expectedColumns, [⟨none, some "X", none, none, none⟩]⟩

/-- Two devices with equal frame counts under one ssid. -/
def csvC2 : Csv := ⟨expectedColumns,
  [⟨none, some "X", some "AA", none, none⟩,
   ⟨none, some "X", some "BB", none, none⟩]⟩

/-- An input whose rssi column is absent. -/
def csvC3 : Csv := ⟨["timestamp", "ssid", "bssid", "channel"],
  [⟨none, some "X", some "B", none, none⟩]⟩

/-- One frame of device B with a missing rssi. -/
def csvC5 : Csv := ⟨expectedColumns,
  [⟨some "2024-01-02 03:04:05", some "X", some "B", some "6", none⟩]⟩

/-- One frame with ssid "Cafe" (which contains no "." character). -/
def csvC7 : Csv := ⟨expectedColumns, [⟨none, some "Cafe", some "AA", none, none⟩]⟩

/-- Normalized rows of the spec scenario (used by the C8 witness). -/
def rowsC8 : List Row :=
  [⟨some 20240102030405, "Cafe", "AA:BB", "6", some (-40)⟩,
   ⟨some 20240102030406, "Cafe", "AA:BB", "6", some (-60)⟩,
   ⟨some 20240102030407, "", "AA:BB", "11", some (-50)⟩]

/-! ## Claim C1 -/

/-- C1 counterexample: in the interactive adapter a filtered-in row
whose bssid is missing is dropped by `groupby("bssid")` (pandas
`dropna` defaults to True), so the aggregated table has no group at
all — the frame counts sum to 0 while the filtered input has 1 row —
and the claim fails for the viewer variant (the route's sort, here
the stable behavior, has an empty table to order). -/
theorem C1_counterexample :
    ssid_view_agg csvC1 "X" = [] ∧
    ssid_view stableFramesSort csvC1 "X" = [] ∧
    (ssidViewRows csvC1 "X").length = 1 :=
  ⟨rfl, rfl, rfl⟩

/-- C1 (amended): in the report pipeline the frame counts of the
aggregation sum to the exact number of rows of the normalized input;
in the interactive pipeline they sum to the number of filtered rows
whose bssid is present (rows with a missing bssid are dropped by the
grouping), for every behavior of the route's underlying sort that
permutes its input. -/
theorem C1_frame_count_sum (csv0 : Csv) (rows0 : List Row)
    (hok : load_scan csv0 = .ok rows0) (rows : List Row)
    (k : List WebSummary → List WebSummary) (hk : ∀ l, (k l).Perm l)
    (csv : Csv) (ssid : String) :
    ((summarize rows).map Summary.frames).sum = rows.length ∧
    ((summarize rows0).map Summary.frames).sum = csv0.rows.length ∧
    ((ssid_view k csv ssid).map WebSummary.frames).sum =
      ((ssidViewRows csv ssid).filter (fun r => r.bssid.isSome)).length := by
  refine ⟨summarize_frames_sum rows, ?_, ssid_view_frames_sum k hk csv ssid⟩
  have h2 : rows0 = csv0.rows.map normalizeRow := by
    by_cases h : missingColumns csv0 = []
    · have hls : load_scan csv0 = .ok (csv0.rows.map normalizeRow) := by
        show (if missingColumns csv0 = [] then _ else _) = _
        rw [if_pos h]
      rw [hls] at hok
      exact (Except.ok.inj hok).symm
    · have hls : load_scan csv0 = .error (.schemaError (missingColumns csv0)) := by
        show (if missingColumns csv0 = [] then _ else _) = _
        rw [if_neg h]
      rw [hls] at hok
      cases hok
  rw [h2, summarize_frames_sum, List.length_map]

/-- C1 witness: the amended claim evaluated on the spec scenario, with
the stable sort standing in for the route's sort behavior. -/
theorem C1_witness :
    load_scan csvA = .ok (csvA.rows.map normalizeRow) ∧
    (stableFramesSort (ssid_view_agg csvA "Cafe")).Perm
      (ssid_view_agg csvA "Cafe") ∧
    (((summarize (csvA.rows.map normalizeRow)).map Summary.frames).sum =
        (csvA.rows.map normalizeRow).length ∧
      ((summarize (csvA.rows.map normalizeRow)).map Summary.frames).sum =
        csvA.rows.length ∧
      ((ssid_view stableFramesSort csvA "Cafe").map WebSummary.frames).sum =
        ((ssidViewRows csvA "Cafe").filter (fun r => r.bssid.isSome)).length) :=
  ⟨rfl, stableFramesSort_perm _, C1_frame_count_sum csvA
    (csvA.rows.map normalizeRow) rfl (csvA.rows.map normalizeRow)
    stableFramesSort stableFramesSort_perm csvA "Cafe"⟩

/-! ## Claim C2 -/

/-- C2 counterexample: the interactive route sorts only by frames with
no bssid key, so the code fixes nothing finer than the
`IsFramesDescSortOf` contract (its underlying numpy quicksort is
unstable beyond the small-array insertion-sort regime, so larger tied
tables come out scrambled).  On a two-group table with equal frame
counts, a sort behavior that is admissible for that contract returns
the groups with bssid DESCENDING — the claimed secondary bssid order
is therefore not a property of the interactive adapter. -/
theorem C2_counterexample :
    IsFramesDescSortOf (ssid_view_agg csvC2 "X")
      (ssid_view tieReversingSort csvC2 "X") ∧
    ¬ (ssid_view tieReversingSort csvC2 "X").Sorted webLex ∧
    (ssid_view tieReversingSort csvC2 "X").Sorted webGE ∧
    ((ssid_view tieReversingSort csvC2 "X").map WebSummary.bssid) =
      ["BB", "AA"] := by
  have hle : ("AA" : String) ≤ "BB" := String.le_iff_toList_le.mpr (by decide)
  have hgk : webGroupKeys (ssidViewRows csvC2 "X") = ["AA", "BB"] := by
    unfold webGroupKeys sortedStrings
    have hmap : ((ssidViewRows csvC2 "X").filterMap CsvRow.bssid).dedup =
        ["AA", "BB"] := by decide
    rw [hmap]
    simp [List.insertionSort, List.orderedInsert, hle]
  have hAA : webSummaryOf (ssidViewRows csvC2 "X") "AA" =
      ⟨"AA", 1, none, none, none, none, none, "nan"⟩ := by decide
  have hBB : webSummaryOf (ssidViewRows csvC2 "X") "BB" =
      ⟨"BB", 1, none, none, none, none, none, "nan"⟩ := by decide
  have hagg : ssid_view_agg csvC2 "X" =
      [⟨"AA", 1, none, none, none, none, none, "nan"⟩,
       ⟨"BB", 1, none, none, none, none, none, "nan"⟩] := by
    unfold ssid_view_agg
    rw [hgk]
    simp [hAA, hBB]
  have hview : ssid_view tieReversingSort csvC2 "X" =
      [⟨"BB", 1, none, none, none, none, none, "nan"⟩,
       ⟨"AA", 1, none, none, none, none, none, "nan"⟩] := by
    show tieReversingSort (ssid_view_agg csvC2 "X") = _
    rw [hagg]
    decide
  refine ⟨⟨?_, ?_⟩, ?_, ?_, ?_⟩
  · rw [hview, hagg]
    decide
  · rw [hview]
    decide
  · rw [hview]
    intro hsorted
    have h2 := (List.pairwise_cons.mp hsorted).1 _ (List.mem_singleton.mpr rfl)
    have h3 : (1 : Nat) < 1 ∨ ((1 : Nat) = 1 ∧ ("BB" : String) ≤ "AA") := h2
    rcases h3 with h3 | ⟨_, h3⟩
    · exact absurd h3 (by decide)
    · exact absurd (String.le_iff_toList_le.mp h3) (by decide)
  · rw [hview]
    decide
  · rw [hview]
    decide

/-- C2 (amended): the document adapter's output is sorted by
frame_count descending with ties broken by bssid ascending
(lexicographic on the raw string), and permuting the input rows
leaves it identical.  The interactive adapter sorts only by
frame_count descending: for every sort behavior satisfying the
library's contract the output is frames-descending and a permutation
of the aggregated table (whose rows are in strictly ascending bssid
order), and for a fixed sort behavior the output is identical across
permutations of the input rows; no bssid tie order is guaranteed. -/
theorem C2_ordering_deterministic (rows rows2 : List Row)
    (h : rows.Perm rows2) (k : List WebSummary → List WebSummary)
    (hk : ∀ l, IsFramesDescSortOf l (k l)) (csv csv2 : Csv) (ssid : String)
    (hw : csv.rows.Perm csv2.rows) :
    (summarize rows).Sorted summaryLE ∧ summarize rows = summarize rows2 ∧
    (ssid_view k csv ssid).Sorted webGE ∧
    (ssid_view k csv ssid).Perm (ssid_view_agg csv ssid) ∧
    (ssid_view_agg csv ssid).Pairwise (fun a b => a.bssid < b.bssid) ∧
    ssid_view k csv ssid = ssid_view k csv2 ssid := by
  refine ⟨?_, summarize_perm h, (hk _).2, (hk _).1,
    ssid_view_agg_pairwise_bssid csv ssid, ssid_view_perm k hw ssid⟩
  unfold summarize
  exact List.sorted_insertionSort _ _

/-- C2 witness: the amended claim evaluated on the spec scenario and a
rotation of it, with the stable sort standing in for the route's sort
behavior. -/
theorem C2_witness :
    (csvA.rows.map normalizeRow).Perm (csvA2.rows.map normalizeRow) ∧
    csvA.rows.Perm csvA2.rows ∧
    IsFramesDescSortOf (ssid_view_agg csvA "Cafe")
      (stableFramesSort (ssid_view_agg csvA "Cafe")) ∧
    ((summarize (csvA.rows.map normalizeRow)).Sorted summaryLE ∧
      summarize (csvA.rows.map normalizeRow) =
        summarize (csvA2.rows.map normalizeRow) ∧
      (ssid_view stableFramesSort csvA "Cafe").Sorted webGE ∧
      (ssid_view stableFramesSort csvA "Cafe").Perm
        (ssid_view_agg csvA "Cafe") ∧
      (ssid_view_agg csvA "Cafe").Pairwise (fun a b => a.bssid < b.bssid) ∧
      ssid_view stableFramesSort csvA "Cafe" =
        ssid_view stableFramesSort csvA2 "Cafe") :=
  ⟨by decide, by decide, stableFramesSort_admissible _,
   C2_ordering_deterministic _ _ (by decide) stableFramesSort
     stableFramesSort_admissible csvA csvA2 "Cafe" (by decide)⟩

/-! ## Claim C3 -/

/-- C3 counterexample: on an input with no rssi column the report
loader fails with the exact missing-column list, but the web loader
returns the rows unvalidated and the index route even serves the
request — the claim fails for the second consumer. -/
theorem C3_counterexample :
    load_scan csvC3 = .error (.schemaError ["rssi"]) ∧
    load_df csvC3 = csvC3.rows ∧
    index csvC3 "" = .ok [("X", 1)] :=
  ⟨rfl, rfl, rfl⟩

/-- C3 (amended): when required columns are absent the report loader
fails with a schema error carrying exactly the absent column names and
no aggregation result is produced; the interactive loader performs no
schema validation at all and returns the raw rows. -/
theorem C3_schema_error (csv : Csv) (h : missingColumns csv ≠ []) :
    load_scan csv = .error (.schemaError (missingColumns csv)) ∧
    docSummaries csv = .error (.schemaError (missingColumns csv)) ∧
    (∀ c, c ∈ missingColumns csv ↔ (c ∈ expectedColumns ∧ c ∉ csv.columns)) ∧
    load_df csv = csv.rows := by
  have hls : load_scan csv = .error (.schemaError (missingColumns csv)) := by
    show (if missingColumns csv = [] then _ else _) = _
    rw [if_neg h]
  refine ⟨hls, ?_, mem_missingColumns csv, rfl⟩
  unfold docSummaries
  rw [hls]
  rfl

/-- C3 witness: the amended claim evaluated on the input with no rssi
column. -/
theorem C3_witness :
    missingColumns csvC3 ≠ [] ∧
    (load_scan csvC3 = .error (.schemaError (missingColumns csvC3)) ∧
      docSummaries csvC3 = .error (.schemaError (missingColumns csvC3)) ∧
      (∀ c, c ∈ missingColumns csvC3 ↔
        (c ∈ expectedColumns ∧ c ∉ csvC3.columns)) ∧
      load_df csvC3 = csvC3.rows) :=
  ⟨by decide, C3_schema_error csvC3 (by decide)⟩

/-! ## Claim C4 -/

/-- C4 counterexample: one unparsable rssi cell.  The report pipeline
coerces it to missing and keeps the row, but in the interactive
adapter the same cell makes read_csv infer an object-dtype rssi
column and the ssid_view aggregation raise — the request fails — so
the claim that unparsable rssi values never raise is false for the
second adapter. -/
theorem C4_counterexample :
    ssid_view_checked stableFramesSort
      (Csv.mk expectedColumns
        [⟨none, some "X", some "B", some "6", some "strong"⟩]) "X" =
      .error .aggError ∧
    load_scan (Csv.mk expectedColumns
        [⟨none, some "X", some "B", some "6", some "strong"⟩]) =
      .ok [⟨none, "X", "B", "6", none⟩] ∧
    (summaryOf [⟨none, "X", "B", "6", none⟩] "B").min_rssi = none :=
  ⟨rfl, rfl, rfl⟩

/-- C4 (amended): a group whose set of present rssi values is empty
has min_rssi, avg_rssi and max_rssi all absent — never zero and never
a textual NaN — and each of the three is absent exactly when that set
is empty, in both adapters.  In the report pipeline value-level parse
failures never raise and never drop a row (whenever the schema check
passes, loading returns one normalized row per input row), and the
interactive adapter never parses timestamps at all; but an unparsable
rssi value anywhere in the column makes the interactive adapter's
aggregation raise instead of coercing — its per-frame missing-value
handling applies only when the rssi column is numerically
inferable. -/
theorem C4_missing_rssi (csv : Csv) (hok : missingColumns csv = [])
    (rows : List Row) (b : String) (wrows : List CsvRow) (wb : String)
    (k : List WebSummary → List WebSummary) (csv2 : Csv) (ssid : String) :
    load_scan csv = .ok (csv.rows.map normalizeRow) ∧
    (csv.rows.map normalizeRow).length = csv.rows.length ∧
    ((summaryOf rows b).min_rssi = none ↔
      (groupRows rows b).filterMap Row.rssi = []) ∧
    ((summaryOf rows b).avg_rssi = none ↔
      (groupRows rows b).filterMap Row.rssi = []) ∧
    ((summaryOf rows b).max_rssi = none ↔
      (groupRows rows b).filterMap Row.rssi = []) ∧
    ((webSummaryOf wrows wb).min_rssi = none ↔
      (webGroupRows wrows wb).filterMap (fun r => webNum r.rssi) = []) ∧
    ((webSummaryOf wrows wb).avg_rssi = none ↔
      (webGroupRows wrows wb).filterMap (fun r => webNum r.rssi) = []) ∧
    ((webSummaryOf wrows wb).max_rssi = none ↔
      (webGroupRows wrows wb).filterMap (fun r => webNum r.rssi) = []) ∧
    (rssiColumnNumeric csv2.rows = true →
      ssid_view_checked k csv2 ssid = .ok (ssid_view k csv2 ssid)) ∧
    (rssiColumnNumeric csv2.rows = false →
      ssid_view_checked k csv2 ssid = .error .aggError) := by
  refine ⟨?_, by simp, foldMin_eq_none_iff _, mean_eq_none_iff _,
    foldMax_eq_none_iff _, foldMin_eq_none_iff _, mean_eq_none_iff _,
    foldMax_eq_none_iff _, ?_, ?_⟩
  · show (if missingColumns csv = [] then _ else _) = _
    rw [if_pos hok]
  · intro h
    unfold ssid_view_checked
    rw [h]
    rfl
  · intro h
    unfold ssid_view_checked
    rw [h]
    rfl

/-- C4 witness: the missing-rssi behaviour evaluated on an input whose
only rssi cell is unparsable text. -/
theorem C4_witness :
    missingColumns (Csv.mk expectedColumns
        [⟨some "not a date", some "X", some "B", some "6", some "strong"⟩]) = [] ∧
    (load_scan (Csv.mk expectedColumns
        [⟨some "not a date", some "X", some "B", some "6", some "strong"⟩]) =
      .ok ((Csv.mk expectedColumns
        [⟨some "not a date", some "X", some "B", some "6", some "strong"⟩]).rows.map
          normalizeRow) ∧
      ((Csv.mk expectedColumns
        [⟨some "not a date", some "X", some "B", some "6", some "strong"⟩]).rows.map
          normalizeRow).length =
        (Csv.mk expectedColumns
          [⟨some "not a date", some "X", some "B", some "6", some "strong"⟩]).rows.length ∧
      ((summaryOf [⟨none, "X", "B", "6", none⟩] "B").min_rssi = none ↔
        (groupRows [⟨none, "X", "B", "6", none⟩] "B").filterMap Row.rssi = []) ∧
      ((summaryOf [⟨none, "X", "B", "6", none⟩] "B").avg_rssi = none ↔
        (groupRows [⟨none, "X", "B", "6", none⟩] "B").filterMap Row.rssi = []) ∧
      ((summaryOf [⟨none, "X", "B", "6", none⟩] "B").max_rssi = none ↔
        (groupRows [⟨none, "X", "B", "6", none⟩] "B").filterMap Row.rssi = []) ∧
      ((webSummaryOf csvC1.rows "B").min_rssi = none ↔
        (webGroupRows csvC1.rows "B").filterMap (fun r => webNum r.rssi) = []) ∧
      ((webSummaryOf csvC1.rows "B").avg_rssi = none ↔
        (webGroupRows csvC1.rows "B").filterMap (fun r => webNum r.rssi) = []) ∧
      ((webSummaryOf csvC1.rows "B").max_rssi = none ↔
        (webGroupRows csvC1.rows "B").filterMap (fun r => webNum r.rssi) = []) ∧
      (rssiColumnNumeric csvA.rows = true →
        ssid_view_checked stableFramesSort csvA "Cafe" =
          .ok (ssid_view stableFramesSort csvA "Cafe")) ∧
      (rssiColumnNumeric csvA.rows = false →
        ssid_view_checked stableFramesSort csvA "Cafe" =
          .error .aggError)) :=
  ⟨rfl, C4_missing_rssi _ (by decide) [⟨none, "X", "B", "6", none⟩] "B"
    csvC1.rows "B" stableFramesSort csvA "Cafe"⟩

/-! ## Claim C5 -/

/-- C5 counterexample: at the same input the two adapters disagree on
the very same absent aggregate — the PDF renders a missing min_rssi as
"" while the web table renders it as "nan" (and renders present
min/max raw instead of as integers), so the formatting is not one
shared value-to-string function.  The input has a single device
group, so the route's one-row table is its own only permutation and
the rendering does not depend on the sort behavior (the stable sort
stands in; the third conjunct records that it leaves the table
unchanged). -/
theorem C5_counterexample :
    (docSummaries csvC5).map (fun l => l.map (docTableRow 1)) =
      .ok [["1", "B", "X", "1", "2024-01-02 03:04:05", "2024-01-02 03:04:05",
            "", "", "", "6"]] ∧
    (ssid_view stableFramesSort csvC5 "X").map webTableRow =
      [["B", "1", "2024-01-02 03:04:05", "2024-01-02 03:04:05", "6",
        "nan", "", "nan"]] ∧
    ssid_view stableFramesSort csvC5 "X" = ssid_view_agg csvC5 "X" ∧
    (ssid_view_agg csvC5 "X").length = 1 ∧
    (docSummaries csvC5).map (fun l => l.map Summary.min_rssi) = .ok [none] ∧
    (ssid_view_agg csvC5 "X").map WebSummary.min_rssi = [none] ∧
    docMinMaxStr none ≠ webMinMaxStr none :=
  ⟨rfl, rfl, rfl, rfl, rfl, rfl, by decide⟩

/-- C5 (amended): the document adapter follows the stated rules
(missing RSSI and missing timestamps render empty, min/max as
half-even-rounded integers, avg with one decimal, present timestamps
as YYYY-MM-DD HH:MM:SS); the interactive adapter does not share these
formatters: it renders missing min/max RSSI and missing timestamps as
"nan", present min/max raw, and only avg via round-to-one-decimal with
missing as "", so identical aggregate values can render differently. -/
theorem C5_formatting (q : ℚ) (y mo d h mi s : Nat)
    (hmo : mo ≤ 12) (hd : d ≤ 31) (hh : h ≤ 23) (hmi : mi ≤ 59) (hs : s ≤ 59) :
    docMinMaxStr none = "" ∧ docAvgStr none = "" ∧ fmt_ts none = "" ∧
    docMinMaxStr (some q) = pyFormatF0 q ∧ docAvgStr (some q) = pyFormatF1 q ∧
    fmt_ts (some (tsKey y mo d h mi s)) =
      toString y ++ "-" ++ pad2 mo ++ "-" ++ pad2 d ++ " " ++
        pad2 h ++ ":" ++ pad2 mi ++ ":" ++ pad2 s ∧
    webMinMaxStr none = "nan" ∧ webAvgStr none = "" ∧ webCellStr none = "nan" ∧
    webMinMaxStr (some q) = pyFloatRepr q ∧
    webMinMaxStr none ≠ docMinMaxStr none :=
  ⟨rfl, rfl, rfl, rfl, rfl, fmt_ts_tsKey y mo d h mi s hmo hd hh hmi hs,
   rfl, rfl, rfl, rfl, by decide⟩

/-- C5 witness: the formatting facts evaluated at value -60 and the
timestamp 2024-01-02 03:04:05. -/
theorem C5_witness :
    ((1 : Nat) ≤ 12 ∧ (2 : Nat) ≤ 31 ∧ (3 : Nat) ≤ 23 ∧ (4 : Nat) ≤ 59 ∧
      (5 : Nat) ≤ 59) ∧
    (docMinMaxStr none = "" ∧ docAvgStr none = "" ∧ fmt_ts none = "" ∧
      docMinMaxStr (some (-60)) = pyFormatF0 (-60) ∧
      docAvgStr (some (-60)) = pyFormatF1 (-60) ∧
      fmt_ts (some (tsKey 2024 1 2 3 4 5)) =
        toString 2024 ++ "-" ++ pad2 1 ++ "-" ++ pad2 2 ++ " " ++
          pad2 3 ++ ":" ++ pad2 4 ++ ":" ++ pad2 5 ∧
      webMinMaxStr none = "nan" ∧ webAvgStr none = "" ∧ webCellStr none = "nan" ∧
      webMinMaxStr (some (-60)) = pyFloatRepr (-60) ∧
      webMinMaxStr none ≠ docMinMaxStr none) :=
  ⟨⟨by decide, by decide, by decide, by decide, by decide⟩,
   C5_formatting (-60) 2024 1 2 3 4 5 (by decide) (by decide) (by decide)
     (by decide) (by decide)⟩

/-! ## Claim C6 -/

/-- C6: ssid_set and channel_set are the distinct values of the group
sorted lexicographically and joined with ", ", and neither ever has
the empty string as an element — in the report pipeline because the
code filters empties explicitly, in the web pipeline because a
read_csv cell is never the empty string (empty fields are NaN, which
stringifies to "nan"). -/
theorem C6_set_fields (rows : List Row) (b : String)
    (wrows : List CsvRow) (wb : String)
    (hw : ∀ row ∈ wrows, row.channel ≠ some "") :
    "" ∉ ssidSetList (groupRows rows b) ∧
    "" ∉ channelSetList (groupRows rows b) ∧
    (ssidSetList (groupRows rows b)).Sorted (· ≤ ·) ∧
    (ssidSetList (groupRows rows b)).Nodup ∧
    (channelSetList (groupRows rows b)).Sorted (· ≤ ·) ∧
    (channelSetList (groupRows rows b)).Nodup ∧
    (summaryOf rows b).ssids = joinSep ", " (ssidSetList (groupRows rows b)) ∧
    (summaryOf rows b).channels =
      joinSep ", " (channelSetList (groupRows rows b)) ∧
    "" ∉ webChannelList (webGroupRows wrows wb) ∧
    (webChannelList (webGroupRows wrows wb)).Sorted (· ≤ ·) ∧
    (webChannelList (webGroupRows wrows wb)).Nodup ∧
    (webSummaryOf wrows wb).channels =
      joinSep ", " (webChannelList (webGroupRows wrows wb)) := by
  refine ⟨?_, ?_, sortedStrings_sorted _, sortedStrings_nodup _,
    sortedStrings_sorted _, sortedStrings_nodup _, rfl, rfl, ?_,
    sortedStrings_sorted _, sortedStrings_nodup _, rfl⟩
  · intro hmem
    have h2 := (List.mem_filter.mp (mem_sortedStrings.mp hmem)).2
    simp at h2
  · intro hmem
    have h2 := (List.mem_filter.mp (mem_sortedStrings.mp hmem)).2
    simp at h2
  · intro hmem
    obtain ⟨row, hrow, he⟩ := List.mem_map.mp (mem_sortedStrings.mp hmem)
    have hrw : row ∈ wrows := (List.mem_filter.mp hrow).1
    cases hc : row.channel with
    | none =>
      rw [hc] at he
      exact absurd he (by decide)
    | some s2 =>
      rw [hc] at he
      have hs2 : s2 = "" := he
      exact hw row hrw (by rw [hc, hs2])

/-- C6 witness: the set fields evaluated on the spec scenario group
(which has an empty ssid and distinct channels). -/
theorem C6_witness :
    (∀ row ∈ csvA.rows, row.channel ≠ some "") ∧
    ("" ∉ ssidSetList (groupRows (csvA.rows.map normalizeRow) "AA:BB") ∧
      "" ∉ channelSetList (groupRows (csvA.rows.map normalizeRow) "AA:BB") ∧
      (ssidSetList (groupRows (csvA.rows.map normalizeRow) "AA:BB")).Sorted (· ≤ ·) ∧
      (ssidSetList (groupRows (csvA.rows.map normalizeRow) "AA:BB")).Nodup ∧
      (channelSetList (groupRows (csvA.rows.map normalizeRow) "AA:BB")).Sorted (· ≤ ·) ∧
      (channelSetList (groupRows (csvA.rows.map normalizeRow) "AA:BB")).Nodup ∧
      (summaryOf (csvA.rows.map normalizeRow) "AA:BB").ssids =
        joinSep ", " (ssidSetList (groupRows (csvA.rows.map normalizeRow) "AA:BB")) ∧
      (summaryOf (csvA.rows.map normalizeRow) "AA:BB").channels =
        joinSep ", " (channelSetList (groupRows (csvA.rows.map normalizeRow) "AA:BB")) ∧
      "" ∉ webChannelList (webGroupRows csvA.rows "AA:BB") ∧
      (webChannelList (webGroupRows csvA.rows "AA:BB")).Sorted (· ≤ ·) ∧
      (webChannelList (webGroupRows csvA.rows "AA:BB")).Nodup ∧
      (webSummaryOf csvA.rows "AA:BB").channels =
        joinSep ", " (webChannelList (webGroupRows csvA.rows "AA:BB"))) :=
  ⟨by decide, C6_set_fields (csvA.rows.map normalizeRow) "AA:BB"
    csvA.rows "AA:BB" (by decide)⟩

/-! ## Claim C7 -/

/-- C7 counterexample: the filter string is interpreted as a regular
expression, not a substring: the pattern "." selects the "Cafe" row
although no ssid contains a "." character, and the invalid pattern "("
produces an error instead of an empty listing. -/
theorem C7_counterexample :
    index csvC7 "." = .ok [("Cafe", 1)] ∧
    csvC7.rows.filter (fun row =>
      containsSeq (lowerStr ".").data (lowerStr (row.ssid.getD "")).data) = [] ∧
    index csvC7 "(" = .error .reError :=
  ⟨rfl, rfl, rfl⟩

/-- C7 (amended): the filter applies the stripped query as a
case-insensitive regular-expression search before grouping (skipped
when the stripped query is empty; invalid patterns raise); for query
strings containing no metacharacters this selects exactly the rows
whose ssid contains the query as a case-insensitive substring, and
such a query matching no row yields an empty summary sequence, not an
error. -/
theorem C7_filter_semantics (csv : Csv) (q : String) (hq : stripStr q ≠ "")
    (hlit : ∀ c ∈ (lowerStr (stripStr q)).data, isMeta c = false) :
    index csv q = .ok (ssidCounts (csv.rows.filter (fun row =>
      containsSeq (lowerStr (stripStr q)).data
        (lowerStr (row.ssid.getD "")).data))) ∧
    (csv.rows.filter (fun row =>
        containsSeq (lowerStr (stripStr q)).data
          (lowerStr (row.ssid.getD "")).data) = [] →
      index csv q = .ok []) := by
  have hfil : indexFilteredRows csv q = .ok (csv.rows.filter (fun row =>
      containsSeq (lowerStr (stripStr q)).data
        (lowerStr (row.ssid.getD "")).data)) := by
    show (if stripStr q = "" then (Except.ok csv.rows : Except WebError _)
          else _) = _
    rw [if_neg hq, pyCompile_lit _ hlit]
    show Except.ok (csv.rows.filter (fun row =>
      (litRe (lowerStr (stripStr q)).data).search
        (lowerStr (row.ssid.getD "")).data)) = _
    congr 1
    apply List.filter_congr
    intro row _
    exact litRe_search _ _
  constructor
  · show (indexFilteredRows csv q).map ssidCounts = _
    rw [hfil]
    rfl
  · intro h
    show (indexFilteredRows csv q).map ssidCounts = _
    rw [hfil, h]
    rfl

/-- C7 witness: the literal filter "CAF" evaluated against the "Cafe"
row (case-insensitive match). -/
theorem C7_witness :
    stripStr "CAF" ≠ "" ∧
    (∀ c ∈ (lowerStr (stripStr "CAF")).data, isMeta c = false) ∧
    (index csvC7 "CAF" = .ok (ssidCounts (csvC7.rows.filter (fun row =>
        containsSeq (lowerStr (stripStr "CAF")).data
          (lowerStr (row.ssid.getD "")).data))) ∧
      (csvC7.rows.filter (fun row =>
          containsSeq (lowerStr (stripStr "CAF")).data
            (lowerStr (row.ssid.getD "")).data) = [] →
        index csvC7 "CAF" = .ok [])) :=
  ⟨by decide, by decide, C7_filter_semantics csvC7 "CAF" (by decide) (by decide)⟩

/-! ## Claim C8 -/

/-- C8: whenever min_rssi, avg_rssi and max_rssi are all present for a
group, min_rssi ≤ avg_rssi ≤ max_rssi, and avg_rssi is the exact
arithmetic mean (sum over count) of the group's present rssi values,
with no rounding at the aggregation stage. -/
theorem C8_rssi_bounds (rows : List Row) (b : String) (mn av mx : ℚ)
    (hmn : (summaryOf rows b).min_rssi = some mn)
    (hav : (summaryOf rows b).avg_rssi = some av)
    (hmx : (summaryOf rows b).max_rssi = some mx) :
    mn ≤ av ∧ av ≤ mx ∧
      av = ((groupRows rows b).filterMap Row.rssi).sum /
        ((groupRows rows b).filterMap Row.rssi).length :=
  summaryOf_rssi_bounds rows b mn av mx hmn hav hmx

/-- C8 witness: the bounds evaluated on the spec scenario group
(min -60, avg -50, max -40). -/
theorem C8_witness :
    ((summaryOf rowsC8 "AA:BB").min_rssi = some (-60) ∧
      (summaryOf rowsC8 "AA:BB").avg_rssi = some (-50) ∧
      (summaryOf rowsC8 "AA:BB").max_rssi = some (-40)) ∧
    ((-60 : ℚ) ≤ -50 ∧ (-50 : ℚ) ≤ -40 ∧
      (-50 : ℚ) = ((groupRows rowsC8 "AA:BB").filterMap Row.rssi).sum /
        ((groupRows rowsC8 "AA:BB").filterMap Row.rssi).length) := by
  have havg : (summaryOf rowsC8 "AA:BB").avg_rssi = some (-50) := by
    have h1 : (summaryOf rowsC8 "AA:BB").avg_rssi =
        mean [(-40 : ℚ), -60, -50] := rfl
    rw [h1]
    unfold mean
    rw [if_neg (by simp : ¬([(-40 : ℚ), -60, -50] = []))]
    norm_num [List.sum_cons, List.sum_nil]
  exact ⟨⟨by decide, havg, by decide⟩,
    C8_rssi_bounds rowsC8 "AA:BB" (-60) (-50) (-40) (by decide) havg (by decide)⟩

/-! ## Claim C9 -/

/-- C9 counterexample: when every present bssid is numeric-looking,
the loading pipeline is not byte-identity.  A lone bssid "0123" makes
read_csv infer an int64 column and astype(str) renders "123"; a bssid
"45" beside a missing cell makes it infer float64 and astype(str)
renders "45.0" — exactly the numeric-looking case the claim says is
kept verbatim. -/
theorem C9_counterexample :
    loadBssidColumn [⟨none, some "X", some "0123", none, none⟩] = ["123"] ∧
    ("123" : String) ≠ "0123" ∧
    loadBssidColumn [⟨none, some "X", some "45", none, none⟩,
      ⟨none, some "Y", none, none, none⟩] = ["45.0", ""] ∧
    ("45.0" : String) ≠ "45" := by
  refine ⟨by decide, by decide, by decide, by decide⟩

/-- C9 (amended): whenever the bssid column holds at least one
non-numeric present value (every real MAC address — read_csv then
infers object dtype), normalization keeps each present bssid
byte-identical to the input text and turns an absent bssid into "",
matching the per-row `normalizeRow` model; and the aggregation has
one group per distinct bssid value of the normalized input, every
value that occurs — including "" — appearing as a group key and no
other.  When every present bssid is numeric-looking, astype(str)
instead renders the inferred numbers (see the counterexample). -/
theorem C9_bssid_preserved (rows : List CsvRow)
    (hobj : bssidColKind rows = .objCol) (r : CsvRow) (s : String)
    (hs : r.bssid = some s) (nrows : List Row) (b : String) :
    bssidCellStr (bssidColKind rows) r.bssid = s ∧
    loadBssidColumn rows = rows.map (fun row => row.bssid.getD "") ∧
    loadBssidColumn rows = (rows.map normalizeRow).map Row.bssid ∧
    (b ∈ (summarize nrows).map Summary.bssid ↔ b ∈ nrows.map Row.bssid) := by
  have hcell : ∀ row : CsvRow,
      bssidCellStr (bssidColKind rows) row.bssid = row.bssid.getD "" := by
    intro row
    rw [hobj]
    cases row.bssid <;> rfl
  refine ⟨?_, ?_, ?_, mem_summarize_bssid nrows b⟩
  · rw [hs]
    have h2 := hcell r
    rw [hs] at h2
    exact h2
  · unfold loadBssidColumn
    exact List.map_congr_left (fun row _ => hcell row)
  · unfold loadBssidColumn
    rw [List.map_map]
    exact List.map_congr_left (fun row _ => hcell row)

/-- C9 witness: the byte-identity evaluated on a column containing a
real MAC address next to a missing cell. -/
theorem C9_witness :
    bssidColKind [⟨none, none, some "0A:b1", none, none⟩,
      ⟨none, some "X", none, none, none⟩] = .objCol ∧
    (⟨none, none, some "0A:b1", none, none⟩ : CsvRow).bssid = some "0A:b1" ∧
    (bssidCellStr (bssidColKind [⟨none, none, some "0A:b1", none, none⟩,
        ⟨none, some "X", none, none, none⟩])
        (⟨none, none, some "0A:b1", none, none⟩ : CsvRow).bssid = "0A:b1" ∧
      loadBssidColumn [⟨none, none, some "0A:b1", none, none⟩,
          ⟨none, some "X", none, none, none⟩] =
        [⟨none, none, some "0A:b1", none, none⟩,
          (⟨none, some "X", none, none, none⟩ : CsvRow)].map
          (fun row => row.bssid.getD "") ∧
      loadBssidColumn [⟨none, none, some "0A:b1", none, none⟩,
          ⟨none, some "X", none, none, none⟩] =
        ([⟨none, none, some "0A:b1", none, none⟩,
          (⟨none, some "X", none, none, none⟩ : CsvRow)].map normalizeRow).map
          Row.bssid ∧
      ("" ∈ (summarize (csvC1.rows.map normalizeRow)).map Summary.bssid ↔
        "" ∈ (csvC1.rows.map normalizeRow).map Row.bssid)) :=
  ⟨by decide, rfl, C9_bssid_preserved
    [⟨none, none, some "0A:b1", none, none⟩, ⟨none, some "X", none, none, none⟩]
    (by decide) ⟨none, none, some "0A:b1", none, none⟩ "0A:b1" rfl
    (csvC1.rows.map normalizeRow) ""⟩

/-! ## Claim C10 -/

/-- C10: in the document adapter a missing channel cell stringifies to
the literal "nan", which survives the non-empty filter and appears as
an element of that device's channel set; the device's summary row in
the output joins exactly that set. -/
theorem C10_channel_nan (rows : List CsvRow) (row : CsvRow)
    (hmem : row ∈ rows) (hch : row.channel = none) :
    "nan" ∈ channelSetList
      (groupRows (rows.map normalizeRow) ((normalizeRow row).bssid)) ∧
    summaryOf (rows.map normalizeRow) ((normalizeRow row).bssid) ∈
      summarize (rows.map normalizeRow) ∧
    (summaryOf (rows.map normalizeRow) ((normalizeRow row).bssid)).channels =
      joinSep ", " (channelSetList
        (groupRows (rows.map normalizeRow) ((normalizeRow row).bssid))) := by
  have hnr : normalizeRow row ∈ rows.map normalizeRow :=
    List.mem_map_of_mem _ hmem
  have hgroup : normalizeRow row ∈
      groupRows (rows.map normalizeRow) ((normalizeRow row).bssid) := by
    unfold groupRows
    rw [List.mem_filter]
    exact ⟨hnr, by simp⟩
  have hchan : (normalizeRow row).channel = "nan" := by
    show channelStr row.channel = "nan"
    rw [hch]
    rfl
  refine ⟨?_, summaryOf_mem_summarize _ _ (List.mem_map_of_mem _ hnr), rfl⟩
  apply mem_sortedStrings.mpr
  rw [List.mem_filter]
  refine ⟨?_, by decide⟩
  rw [← hchan]
  exact List.mem_map_of_mem _ hgroup

/-- C10 witness: the "nan" channel element evaluated on the input with
one missing channel cell. -/
theorem C10_witness :
    (⟨none, some "X", none, none, none⟩ : CsvRow) ∈ csvC1.rows ∧
    (⟨none, some "X", none, none, none⟩ : CsvRow).channel = none ∧
    ("nan" ∈ channelSetList (groupRows (csvC1.rows.map normalizeRow)
        ((normalizeRow ⟨none, some "X", none, none, none⟩).bssid)) ∧
      summaryOf (csvC1.rows.map normalizeRow)
          ((normalizeRow ⟨none, some "X", none, none, none⟩).bssid) ∈
        summarize (csvC1.rows.map normalizeRow) ∧
      (summaryOf (csvC1.rows.map normalizeRow)
          ((normalizeRow ⟨none, some "X", none, none, none⟩).bssid)).channels =
        joinSep ", " (channelSetList (groupRows (csvC1.rows.map normalizeRow)
          ((normalizeRow ⟨none, some "X", none, none, none⟩).bssid)))) :=
  ⟨by decide, rfl, C10_channel_nan csvC1.rows
    ⟨none, some "X", none, none, none⟩ (by decide) rfl⟩

end WifiIntel
